import Mathlib

/-! cUTest: the suite runner and its containers.

A shallow embedding of `src/linked_list.c`, `src/cutest_private.h` and
`src/cutest.c`.

Modelling conventions.

* A linked list is the sequence of the `data` fields of its nodes, read from
  `root` along the `next` pointers, together with the `size` field, which the
  C code maintains separately.
* A C string is a `String`; a `const char *` that may be `NULL` is an
  `Option String`.
* The counters of `suite_run` are C `int`s. They are modelled in `Int`: every
  counter moves by at most one per loop iteration and the loop runs `size`
  times, so for every list that fits in memory no counter leaves the range of
  `int`.
* A child process is a function of the memory it inherits at `fork` and of the
  world outside the process (type `ω`: files, devices, time). It yields the
  way the child code ends and the world it leaves behind. Whatever a child
  writes to its own memory is lost when it terminates, as after `fork`.
* `pipe`, `fork`, `waitpid`, `write` and `read` are assumed to succeed when
  they are called, with one exception that the code can reach: `read` on an
  empty pipe never returns, because the parent itself keeps the write end
  open.
* A child that is killed by a signal or that calls `exit` does so inside the
  procedure it runs, that is before the `write` that follows the test
  function in the child's code.
* The field `fun` of `Test_case` is called `func`, `fun` being a keyword.
* A store through a `NULL` pointer kills the process with `SIGSEGV`.
* The type `double` and its operations are a parameter (`DoubleOps`): nothing
  is assumed of rounding, of infinities or of NaN.
-/

namespace CUTest

/-! ## linked_list.h / linked_list.c -/

/-- The type `ll_list`: the node data from `root` on, and the `size` field. -/
structure ll_list (α : Type) where
  root : List α
  size : Nat

/-- The type `ll_iterator`: the list referred to and the node `next` points
to, given as the remaining nodes from it on (`[]` is `NULL`). -/
structure ll_iterator (α : Type) where
  l : ll_list α
  next : List α

/-- Function `ll_init` (linked_list.c 40-45): `root = NULL`, `size = 0`. -/
def ll_init {α : Type} : ll_list α :=
  { root := [], size := 0 }

/-- Function `ll_push_front` (linked_list.c 64-81): on an empty list the new node
becomes the root; otherwise the list is scrolled to the node whose `next` is
`NULL` and the new node is linked after it. `size` is incremented. -/
def ll_push_front {α : Type} (l : ll_list α) (d : α) : ll_list α :=
  match l.root with
  | [] => { root := [d], size := l.size + 1 }
  | n :: rest => { root := n :: (rest ++ [d]), size := l.size + 1 }

/-- Function `ll_get_iterator` (linked_list.c 184-188): `it = {l, l.root}`. -/
def ll_get_iterator {α : Type} (l : ll_list α) : ll_iterator α :=
  { l := l, next := l.root }

/-- Function `ll_next` (linked_list.c 190-196): returns `it->next->data` and advances
only if `it->next->next != NULL`. Dereferencing a `NULL` `it->next` is a
crash, rendered as `none`. -/
def ll_next {α : Type} (it : ll_iterator α) : Option (α × ll_iterator α) :=
  match it.next with
  | [] => none
  | [d] => some (d, it)
  | d :: n :: rest => some (d, { it with next := n :: rest })

/-- The decrement `l->size--` of the `unsigned int` field `size`, which
wraps at 0. -/
def size_dec (n : Nat) : Nat :=
  if n = 0 then 4294967295 else n - 1

/-- The scroll of `ll_pop_front` (linked_list.c 113-119) from the node with data
`d` along `rest`: the data of the nodes up to `penultimate`, and the data of
`last`. -/
def scroll_last {α : Type} : α → List α → List α × α
  | d, [] => ([], d)
  | d, n :: rest => (d :: (scroll_last n rest).1, (scroll_last n rest).2)

/-- Function `ll_pop_front` (linked_list.c 94-126): removes the node whose `next`
is `NULL` and returns its data. On an empty list it calls
`exit (EXIT_FAILURE)`, rendered as `none`. -/
def ll_pop_front {α : Type} (l : ll_list α) : Option (α × ll_list α) :=
  match l.root with
  | [] => none
  | [d] => some (d, { root := [], size := size_dec l.size })
  | d :: n :: rest =>
    some ((scroll_last n rest).2,
      { root := d :: (scroll_last n rest).1, size := size_dec l.size })

/-- Function `ll_pop_back` (linked_list.c 128-143): removes the root node and
returns its data. On an empty list it calls `exit (EXIT_FAILURE)`, rendered
as `none`. -/
def ll_pop_back {α : Type} (l : ll_list α) : Option (α × ll_list α) :=
  match l.root with
  | [] => none
  | d :: rest => some (d, { root := rest, size := size_dec l.size })

/-- Why a list function does not return: it calls `exit (EXIT_FAILURE)`, it
dereferences a `NULL` pointer, or it uses memory in a way the language leaves
undefined (an uninitialised pointer, freed memory). -/
inductive ListFault where
  | exit_failure
  | segfault
  | undefined
  deriving DecidableEq, Repr

/-- Function `ll_push_back` (linked_list.c 86-92): the new node becomes the
root. -/
def ll_push_back {α : Type} (l : ll_list α) (d : α) : ll_list α :=
  { root := d :: l.root, size := l.size + 1 }

/-- The step `n = n->next` taken `k` times from the node where `nodes` starts
(linked_list.c 155-158, 173-177); the step from `NULL` is a crash. -/
def walk_next {α : Type} : Nat → List α → Except ListFault (List α)
  | 0, nodes => .ok nodes
  | _ + 1, [] => .error .segfault
  | k + 1, _ :: rest => walk_next k rest

/-- Function `ll_get_pos` (linked_list.c 145-160). The list is passed by value
and nothing is stored: the only result is the item. -/
def ll_get_pos {α : Type} (l : ll_list α) (pos : Int) : Except ListFault α :=
  if pos < 1 ∨ pos.toNat > l.size then .error .exit_failure
  else
    match walk_next (pos.toNat - 1) l.root with
    | .error e => .error e
    | .ok [] => .error .segfault
    | .ok (d :: _) => .ok d

/-- Function `ll_pop_pos` (linked_list.c 162-182), with the list the caller
holds afterwards. The list is passed by value: the caller's `root` and `size`
are not assigned, and the nodes are those left after
`penultimate->next = n->next`. For `pos = 1` the loop does not run and
`penultimate` is used uninitialised. -/
def ll_pop_pos {α : Type} (l : ll_list α) (pos : Int) :
    Except ListFault (α × ll_list α) :=
  if pos < 1 ∨ pos.toNat > l.size then .error .exit_failure
  else if pos.toNat = 1 then .error .undefined
  else
    match walk_next (pos.toNat - 1) l.root with
    | .error e => .error e
    | .ok [] => .error .segfault
    | .ok (d :: after) => .ok (d, { root := l.root.take (pos.toNat - 1) ++ after, size := l.size })

/-- The iterator after `k` calls of `ll_next`. -/
def ll_next_iter {α : Type} : Nat → ll_iterator α → Option (ll_iterator α)
  | 0, it => some it
  | k + 1, it =>
    match ll_next it with
    | none => none
    | some (_, it1) => ll_next_iter k it1

/-- The item the `k`-th call of `ll_next` returns, for `k >= 1`. -/
def kth_next {α : Type} (k : Nat) (it : ll_iterator α) : Option α :=
  match ll_next_iter (k - 1) it with
  | none => none
  | some it1 => (ll_next it1).map Prod.fst

/-- The loop `while (l->size > 0) ll_pop_front (l);` of `ll_destroy`
(linked_list.c 55-56), within `k` iterations. -/
def destroy_loop {α : Type} : Nat → ll_list α → Except ListFault (ll_list α)
  | 0, l => .ok l
  | k + 1, l =>
    if l.size > 0 then
      match ll_pop_front l with
      | none => .error .exit_failure
      | some (_, l1) => destroy_loop k l1
    else .ok l

/-- Function `ll_destroy` (linked_list.c 50-59) on a list that exists: a list of
size 0 is left as it is (`some`); otherwise the items are popped, which takes
`size` iterations, and the list itself is freed (`none`). -/
def ll_destroy {α : Type} (l : ll_list α) : Except ListFault (Option (ll_list α)) :=
  if l.size = 0 then .ok (some l)
  else
    match destroy_loop l.size l with
    | .error e => .error e
    | .ok _ => .ok none

/-- The loop `while ((unsigned int) i++ < from.size) ll_push_front (to, ll_next (&it));`
of `ll_copy` and `ll_append` (linked_list.c 205-207, 216-218), by the number
of iterations left. The parameters `to` and `from` are called `dst` and
`src`, the C names being keywords. -/
def transfer {α : Type} : Nat → ll_iterator α → ll_list α → Except ListFault (ll_list α)
  | 0, _, dst => .ok dst
  | n + 1, it, dst =>
    match ll_next it with
    | none => .error .segfault
    | some (d, it1) => transfer n it1 (ll_push_front dst d)

/-- Function `ll_copy` (linked_list.c 198-210). After `ll_destroy` has freed the
list, `ll_init (to)` stores into freed memory. -/
def ll_copy {α : Type} (dst src : ll_list α) : Except ListFault (ll_list α) :=
  match ll_destroy dst with
  | .error e => .error e
  | .ok none => .error .undefined
  | .ok (some _) => transfer src.size (ll_get_iterator src) ll_init

/-- Function `ll_append` (linked_list.c 212-221). -/
def ll_append {α : Type} (dst src : ll_list α) : Except ListFault (ll_list α) :=
  transfer src.size (ll_get_iterator src) dst

/-- The property that `size` is the number of nodes reachable from `root`. -/
def size_is_length {α : Type} (l : ll_list α) : Prop :=
  l.size = l.root.length

/-! ## cutest_private.h -/

/-- Constant `NAME_LEN` (cutest_private.h 23). -/
def NAME_LEN : Nat := 100

/-- The type `Status` (cutest_private.h 160-165). -/
structure Status where
  assertion : Option String
  failed : Int
  invalid : Option String
  deriving DecidableEq, Repr

/-- The value of `Status st = {}`. -/
def Status.zero : Status :=
  { assertion := none, failed := 0, invalid := none }

/-- How the code run in a child process ends: the procedure returns to the
child's `main` code (with a result `a`), the child is killed by a signal, or
the procedure itself calls `exit (code)`. -/
inductive ChildResult (α : Type) where
  | returned (a : α)
  | killed (sig : Nat)
  | quit (code : Nat)
  deriving DecidableEq, Repr

/-- A `void name (void)` procedure as declared by `_BEFORE_TEST` and
`_AFTER_TEST` (cutest_private.h 35, 40). -/
abbrev Proc (ω : Type) := ω → ChildResult Unit × ω

/-- A `void (name)(Status *__s)` function as declared by `_TEST_CASE`
(cutest_private.h 30): from the `Status` it is handed to the `Status` it
leaves, when it returns. -/
abbrev TestFun (ω : Type) := Status → ω → ChildResult Status × ω

/-- The type `Test_case` (cutest_private.h 172-176). -/
structure Test_case (ω : Type) where
  func : TestFun ω
  name : String

/-! ### Test bodies

The body of a `TEST_CASE` is a sequence of statements. The assertions of
cutest_private.h all expand to an update of `*__s` followed by
`if (__s->failed) return;`. -/

/-- A statement of a test body. -/
inductive Stmt (ω : Type) where
  /-- An assertion: the update it makes to `*__s`, then
  `if (__s->failed) return;`. -/
  | check (upd : ω → Status → Status)
  /-- The expansion of `_fail(msg)`, with the text it stores. -/
  | fail (text : String)
  /-- Any other statement, by its effect. -/
  | exec (f : ω → ω)

/-- Expansion of `_assert(expr, msg)` (cutest_private.h 46-50); `text` is the string
literal the expansion builds from `expr` and `msg`. -/
def _assert {ω : Type} (expr : ω → Bool) (text : String) : Stmt ω :=
  .check (fun w _ =>
    { assertion := some text, failed := if expr w then 0 else 1, invalid := none })

/-- Expansion of `_fail(msg)` (cutest_private.h 151-154). -/
def _fail {ω : Type} (msg : String) : Stmt ω :=
  .fail ("Reached a fail() statement: " ++ msg)

/-- Execution of a statement sequence. `Except.error` is the `return;` of an
assertion taken in the middle of the body, `Except.ok` is control reaching
the end of the sequence. -/
def exec_stmts {ω : Type} : List (Stmt ω) → Status → ω → Except (Status × ω) (Status × ω)
  | [], s, w => .ok (s, w)
  | .check upd :: rest, s, w =>
      if (upd w s).failed ≠ 0 then .error (upd w s, w) else exec_stmts rest (upd w s) w
  | .fail text :: _, s, w => .error ({ s with assertion := some text, failed := 1 }, w)
  | .exec f :: rest, s, w => exec_stmts rest s (f w)

/-- Declaration `TEST_CASE(name) { body }` (cutest.h 52): the function returns at the end
of the body or at the `return;` of an assertion. -/
def TEST_CASE {ω : Type} (body : List (Stmt ω)) : TestFun ω :=
  fun s w =>
    match exec_stmts body s w with
    | .ok r => (.returned r.1, r.2)
    | .error r => (.returned r.1, r.2)

/-! ### Equality predicates (cutest.c 304-434)

The functions behind the assertions on numbers, arrays and matrixes. An array
argument is the function from an index to the element read there.

The arithmetic and the comparisons of `double` are those of the platform; they
are a parameter of the functions that use them, so that what is proved of
these functions holds whatever the floating point arithmetic does. -/

/-- The operations on `double` that the predicates use. -/
structure DoubleOps (F : Type) where
  /-- The constant `0.0`. -/
  zero : F
  /-- The difference `x - y`. -/
  sub : F → F → F
  /-- The function `fabs`. -/
  fabs : F → F
  /-- The comparison `x < y`. -/
  lt : F → F → Bool
  /-- The comparison `x <= y`. -/
  le : F → F → Bool
  /-- The comparison `x > y`. -/
  gt : F → F → Bool
  /-- The text `printf` gives for the conversion `%.6e`. -/
  fmt_e : F → String

/-- The number of the signal `SIGSEGV`. -/
def SIGSEGV : Nat := 11

/-- The call `sprintf ((char *) __s->invalid, ...)`, by the text it produces:
the text is stored where `__s->invalid` points, the pointer itself is not
assigned. Through a `NULL` pointer the store kills the process with
`SIGSEGV`; a pointer that is not `NULL` is taken to point to memory that can
hold the text. The result is the Status, or the signal. -/
def sprintf_invalid (s : Status) (text : String) : Except Nat Status :=
  match s.invalid with
  | none => .error SIGSEGV
  | some _ => .ok { s with invalid := some text }

/-- The loop `for (i = 0; i < len; ++i) __s->failed |= c (i);` by the number of
its iterations and the value of `failed` when it starts. -/
def or_loop (c : Nat → Bool) : Nat → Int → Int
  | 0, failed => failed
  | n + 1, failed => Int.lor (or_loop c n failed) (if c n then 1 else 0)

/-- The nested loops `for (i = 0; i < m; ++i) for (j = 0; j < n; ++j)
__s->failed |= c (i, j);` by the number `m` of iterations of the outer one. -/
def or_loop2 (c : Nat → Nat → Bool) (n : Nat) : Nat → Int → Int
  | 0, failed => failed
  | m + 1, failed => or_loop (c m) n (or_loop2 c n m failed)

/-- The text written for an invalid array length. -/
def array_length_text (len : Int) : String :=
  "Invalid array length (" ++ toString len ++ "). Length must be > 0.\n"

/-- The text written for an invalid matrix size. -/
def matrix_size_text : String :=
  "Invalid matrix size. Dimension must be > 0.\n"

/-- Function `__assert_equals_flo` (cutest.c 308-320). -/
def __assert_equals_flo {F : Type} (ops : DoubleOps F) (x y tol : F) (s : Status) :
    Except Nat Status :=
  if ops.le tol ops.zero then
    sprintf_invalid s
      ("Invalid \x22tol\x22 value (" ++ ops.fmt_e tol ++ "). \x22Tol\x22 must be positive")
  else
    .ok { s with failed := if ops.lt (ops.fabs (ops.sub x y)) tol then 0 else 1,
                 invalid := none }

/-- Function `__assert_equals_array_int` (cutest.c 325-347). -/
def __assert_equals_array_int (x y : Nat → Int) (len : Int) (s : Status) :
    Except Nat Status :=
  if len < 1 then sprintf_invalid s (array_length_text len)
  else
    .ok { s with failed := or_loop (fun i => x i != y i) len.toNat 0, invalid := none }

/-- Function `__assert_equals_array_flo` (cutest.c 353-376). -/
def __assert_equals_array_flo {F : Type} (ops : DoubleOps F) (x y : Nat → F) (len : Int)
    (tol : F) (s : Status) : Except Nat Status :=
  if len < 1 then sprintf_invalid s (array_length_text len)
  else
    .ok { s with
          failed := or_loop (fun i => ops.gt (ops.fabs (ops.sub (x i) (y i))) tol) len.toNat 0,
          invalid := none }

/-- Function `__assert_equals_matrix_int` (cutest.c 382-405); `failed` is not
assigned before the loops. -/
def __assert_equals_matrix_int (m n : Int) (x y : Nat → Nat → Int) (s : Status) :
    Except Nat Status :=
  if n < 1 ∨ m < 1 then sprintf_invalid s matrix_size_text
  else
    .ok { s with failed := or_loop2 (fun i j => x i j != y i j) n.toNat m.toNat s.failed,
                 invalid := none }

/-- Function `__assert_equals_matrix_flo` (cutest.c 410-434); `failed` is not
assigned before the loops. -/
def __assert_equals_matrix_flo {F : Type} (ops : DoubleOps F) (m n : Int)
    (x y : Nat → Nat → F) (tol : F) (s : Status) : Except Nat Status :=
  if n < 1 ∨ m < 1 then sprintf_invalid s matrix_size_text
  else
    .ok { s with
          failed := or_loop2 (fun i j => ops.gt (ops.fabs (ops.sub (x i j) (y i j))) tol)
            n.toNat m.toNat s.failed,
          invalid := none }

/-- Expansion of `_assert_equals_flo(x, y, tol, msg)` (cutest_private.h 76-79) up to
its `if (__s->failed) return;`; `text` is the string literal it builds. -/
def _assert_equals_flo {F : Type} (ops : DoubleOps F) (x y tol : F) (text : String)
    (s : Status) : Except Nat Status :=
  __assert_equals_flo ops x y tol { s with assertion := some text }

/-- Expansion of `_assert_equals_array_int(x, y, len, msg)` (cutest_private.h 113-116)
up to its `if (__s->failed) return;`. -/
def _assert_equals_array_int (x y : Nat → Int) (len : Int) (text : String) (s : Status) :
    Except Nat Status :=
  __assert_equals_array_int x y len { s with assertion := some text }

/-- Expansion of `_assert_equals_array_flo(x, y, len, tol, msg)`
(cutest_private.h 122-126) up to its `if (__s->failed) return;`. -/
def _assert_equals_array_flo {F : Type} (ops : DoubleOps F) (x y : Nat → F) (len : Int)
    (tol : F) (text : String) (s : Status) : Except Nat Status :=
  __assert_equals_array_flo ops x y len tol { s with assertion := some text }

/-- A `TEST_CASE` whose body is one assertion that calls a predicate: after
it the function returns, whether at `if (__s->failed) return;` or at the end
of the body; a signal raised in the predicate kills the child. -/
def TEST_CASE_single {ω : Type} (assertion : Status → Except Nat Status) : TestFun ω :=
  fun s w =>
    match assertion s with
    | .ok s1 => (.returned s1, w)
    | .error sig => (.killed sig, w)

/-! ## cutest.h / cutest.c -/

/-- The type `Suite` (cutest.h 251-257); a `NULL` procedure is `none`. -/
structure Suite (ω : Type) where
  name : String
  asserts : ll_list (Test_case ω)
  before : Option (Proc ω)
  after : Option (Proc ω)

/-- Call `strncpy (dst, src, NAME_LEN)`: the characters that are stored, one
`char` each. -/
def strncpy_name (src : String) : String :=
  String.mk (src.data.take NAME_LEN)

/-- Function `suite_new` (cutest.c 39-59). -/
def suite_new {ω : Type} (name : String) (bef aft : Option (Proc ω)) : Suite ω :=
  { name := strncpy_name name, asserts := ll_init, before := bef, after := aft }

/-- Function `suite_add` (cutest.c 65-81). -/
def suite_add {ω : Type} (s : Suite ω) (t : TestFun ω) (name : String) : Suite ω :=
  { s with asserts := ll_push_front s.asserts { func := t, name := strncpy_name name } }

/-- What `waitpid` stores in `status` for a terminated child. -/
inductive WaitStatus where
  | exited (code : Nat)
  | signaled (sig : Nat)
  deriving DecidableEq, Repr

/-- Test `WIFEXITED` of <sys/wait.h>. -/
def WIFEXITED : WaitStatus → Bool
  | .exited _ => true
  | .signaled _ => false

/-- Test `WIFSIGNALED` of <sys/wait.h>. -/
def WIFSIGNALED : WaitStatus → Bool
  | .exited _ => false
  | .signaled _ => true

/-- Value `WEXITSTATUS` of <sys/wait.h>. -/
def WEXITSTATUS : WaitStatus → Nat
  | .exited code => code
  | .signaled _ => 0

/-- Value `WTERMSIG` of <sys/wait.h>. -/
def WTERMSIG : WaitStatus → Nat
  | .exited _ => 0
  | .signaled sig => sig

/-- The wait status of a child whose code is `proc (); exit (0);`. -/
def wait_status {α : Type} : ChildResult α → WaitStatus
  | .returned _ => .exited 0
  | .killed sig => .signaled sig
  | .quit code => .exited (code % 256)

/-- The three children `suite_run` forks for a test case. -/
inductive Phase where
  | before
  | test
  | after
  deriving DecidableEq, Repr

/-- What `suite_run` does that can be seen from outside: the system calls on
the pipe, the children it forks (with the test case `tc` points to) and the
messages it prints. -/
inductive Event where
  | pipe
  | fork (p : Phase) (tc : String)
  | read
  | starting (suite : String)
  | empty_suite (suite : String)
  | before_signaled (suite tc : String) (term_sig : Nat)
  | before_failed (suite tc : String) (exit_status : Nat)
  | test_signaled (suite tc : String) (term_sig : Nat)
  | test_failed (suite tc : String) (exit_status : Nat)
  | after_signaled (suite tc : String) (term_sig : Nat)
  | after_failed (suite tc : String) (exit_status : Nat)
  | assertion_failure (suite tc : String) (assertion : Option String)
  | invalid_assertion (suite tc : String) (assertion invalid : Option String)
  | summary (suite : String) (successes fails errors tot char_num : Int)
  deriving DecidableEq, Repr

/-- The variables of `suite_run` that change in the loop, the content of the
pipe (the records written and not yet read, oldest first), what has been
done so far and the world outside. -/
structure RunState (ω : Type) where
  st : Status
  pipe : List Status
  fails : Int
  errors : Int
  out : List Event
  world : ω

/-- Why a call of `suite_run` does not return. -/
inductive Fault where
  /-- A `read` on an empty pipe. -/
  | blocked
  /-- A call of `ll_next` on an iterator whose `next` is `NULL`. -/
  | segfault
  deriving DecidableEq, Repr

/-- Result of a piece of `suite_run`: the state it reaches, or the fault and
the state in which it occurs. -/
abbrev Run (ω : Type) (α : Type) := Except (Fault × RunState ω) α

/-- Appends events to `out`. -/
def RunState.emit {ω : Type} (σ : RunState ω) (es : List Event) : RunState ω :=
  { σ with out := σ.out ++ es }

/-- The `BEFORE_TEST` part of the loop body (cutest.c 129-172). The `Bool` is
`true` when the part ends in `continue`. -/
def before_phase {ω : Type} (s : Suite ω) (tc : Test_case ω) (σ : RunState ω) :
    Bool × RunState ω :=
  match s.before with
  | none => (false, σ)
  | some bef =>
    let r := bef σ.world
    let status := wait_status r.1
    let σ1 := { σ with out := σ.out ++ [.fork .before tc.name], world := r.2 }
    if WIFSIGNALED status then
      (true, { σ1 with errors := σ1.errors + 1,
                       out := σ1.out ++ [.before_signaled s.name tc.name (WTERMSIG status)] })
    else if !WIFEXITED status then
      (true, { σ1 with errors := σ1.errors + 1,
                       out := σ1.out ++ [.before_failed s.name tc.name (WEXITSTATUS status)] })
    else (false, σ1)

/-- The test part of the loop body (cutest.c 174-213). The child runs
`tc->fun (&st)` on its copy of `st`, writes the result to the pipe and calls
`exit (0)`. The `Bool` is `true` when the part ends in `continue`. -/
def test_phase {ω : Type} (s : Suite ω) (tc : Test_case ω) (σ : RunState ω) :
    Bool × RunState ω :=
  let r := tc.func σ.st σ.world
  let status := wait_status r.1
  let pipe := match r.1 with
    | .returned st => σ.pipe ++ [st]
    | _ => σ.pipe
  let σ1 := { σ with pipe := pipe, out := σ.out ++ [.fork .test tc.name], world := r.2 }
  if WIFSIGNALED status then
    (true, { σ1 with errors := σ1.errors + 1,
                     out := σ1.out ++ [.test_signaled s.name tc.name (WTERMSIG status)] })
  else if !WIFEXITED status then
    (true, { σ1 with errors := σ1.errors + 1,
                     out := σ1.out ++ [.test_failed s.name tc.name (WEXITSTATUS status)] })
  else (false, σ1)

/-- The `AFTER_TEST` part of the loop body (cutest.c 215-252). -/
def after_phase {ω : Type} (s : Suite ω) (tc : Test_case ω) (σ : RunState ω) : RunState ω :=
  match s.after with
  | none => σ
  | some aft =>
    let r := aft σ.world
    let status := wait_status r.1
    let σ1 := { σ with out := σ.out ++ [.fork .after tc.name], world := r.2 }
    if WIFSIGNALED status then
      { σ1 with out := σ1.out ++ [.after_signaled s.name tc.name (WTERMSIG status)] }
    else if !WIFEXITED status then
      { σ1 with out := σ1.out ++ [.after_failed s.name tc.name (WEXITSTATUS status)] }
    else σ1

/-- The two tests on the `Status` that was read (cutest.c 257-277). -/
def tally {ω : Type} (s : Suite ω) (tc : Test_case ω) (σ : RunState ω) : RunState ω :=
  let σ1 :=
    if σ.st.failed ≠ 0 then
      { σ with fails := σ.fails + 1,
               out := σ.out ++ [.assertion_failure s.name tc.name σ.st.assertion] }
    else σ
  if σ1.st.invalid ≠ none then
    { σ1 with errors := σ1.errors + 1,
              out := σ1.out ++ [.invalid_assertion s.name tc.name σ1.st.assertion σ1.st.invalid] }
  else σ1

/-- Reading the result and counting it (cutest.c 254-277). -/
def collect {ω : Type} (s : Suite ω) (tc : Test_case ω) (σ : RunState ω) : Run ω (RunState ω) :=
  match σ.pipe with
  | [] => .error (.blocked, σ.emit [.read])
  | rec :: rest =>
    .ok (tally s tc { σ with st := rec, pipe := rest, out := σ.out ++ [.read] })

/-- The loop body of `suite_run` after `tc` is fetched (cutest.c 129-277). -/
def run_test_case {ω : Type} (s : Suite ω) (tc : Test_case ω) (σ : RunState ω) :
    Run ω (RunState ω) :=
  match before_phase s tc σ with
  | (true, σ1) => .ok σ1
  | (false, σ1) =>
    match test_phase s tc σ1 with
    | (true, σ2) => .ok σ2
    | (false, σ2) => collect s tc (after_phase s tc σ2)

/-- The start of the loop body: `st.failed = 0;` (cutest.c 126). -/
def RunState.reset_failed {ω : Type} (σ : RunState ω) : RunState ω :=
  { σ with st := { σ.st with failed := 0 } }

/-- The loop `for (i = 0; i < tot; i++)` (cutest.c 124-278), by the number of
iterations still to run. -/
def suite_loop {ω : Type} (s : Suite ω) :
    Nat → ll_iterator (Test_case ω) → RunState ω → Run ω (RunState ω)
  | 0, _, σ => .ok σ
  | n + 1, it, σ =>
    match ll_next it with
    | none => .error (.segfault, σ.reset_failed)
    | some (tc, it1) =>
      match run_test_case s tc σ.reset_failed with
      | .error e => .error e
      | .ok σ1 => suite_loop s n it1 σ1

/-- What `suite_run` has computed when it returns. -/
structure Report (ω : Type) where
  successes : Int
  fails : Int
  errors : Int
  tot : Int
  out : List Event
  world : ω

/-- The state of `suite_run` when it enters the loop: the declarations of
cutest.c 93-107, `pipe (fd)` and the first `printf`. -/
def suite_start {ω : Type} (s : Suite ω) (w : ω) : RunState ω :=
  { st := Status.zero, pipe := [], fails := 0, errors := 0,
    out := [.pipe, .starting s.name], world := w }

/-- Function `suite_run` (cutest.c 91-302). -/
def suite_run {ω : Type} (s : Suite ω) (w : ω) : Run ω (Report ω) :=
  let tot : Int := s.asserts.size
  let σ0 := suite_start s w
  if s.asserts.size < 1 then
    .ok { successes := 0, fails := 0, errors := 0, tot := tot,
          out := σ0.out ++ [.empty_suite s.name], world := w }
  else
    match suite_loop s s.asserts.size (ll_get_iterator s.asserts) σ0 with
    | .error e => .error e
    | .ok σ =>
      let successes := tot - σ.fails - σ.errors
      let char_num : Int :=
        if successes = tot ∨ σ.fails = tot ∨ σ.errors = tot then 6 else 5
      .ok { successes := successes, fails := σ.fails, errors := σ.errors, tot := tot,
            out := σ.out ++ [.summary s.name successes σ.fails σ.errors tot char_num],
            world := σ.world }

/-! ## Client code and comparison runs -/

/-- Client code that registers the tests `ts`, first to last, each with a
call of `suite_add`. -/
def register {ω : Type} (s : Suite ω) (ts : List (TestFun ω × String)) : Suite ω :=
  ts.foldl (fun s t => suite_add s t.1 t.2) s

/-- The `Test_case` record `suite_add` allocates for a test. -/
def new_case {ω : Type} (t : TestFun ω × String) : Test_case ω :=
  { func := t.1, name := strncpy_name t.2 }

/-- Running given test cases one after the other, first to last: each gets
the loop body of `suite_run`, and a fault ends the run. -/
def run_in_order {ω : Type} (s : Suite ω) :
    List (Test_case ω) → RunState ω → Run ω (RunState ω)
  | [], σ => .ok σ
  | tc :: rest, σ =>
    match run_test_case s tc σ.reset_failed with
    | .error e => .error e
    | .ok σ1 => run_in_order s rest σ1

/-- The state `σ` with `k` more errors and the events `x` in front of its own. -/
def RunState.shift {ω : Type} (k : Int) (x : List Event) (σ : RunState ω) : RunState ω :=
  { σ with errors := σ.errors + k, out := x ++ σ.out }

/-- The same change applied to the state a run ends in. -/
def shift_run {ω : Type} (k : Int) (x : List Event) : Run ω (RunState ω) → Run ω (RunState ω)
  | .ok σ => .ok (σ.shift k x)
  | .error (f, σ) => .error (f, σ.shift k x)

/-- The messages that report a failed cleanup. -/
def Event.is_cleanup_report : Event → Bool
  | .after_signaled _ _ _ => true
  | .after_failed _ _ _ => true
  | _ => false

/-- The events other than the reports of a failed cleanup. -/
def drop_cleanup_reports (out : List Event) : List Event :=
  out.filter (fun e => !e.is_cleanup_report)

/-- Two states of `suite_run` that differ at most in reports of a failed cleanup. -/
def same_but_cleanup {ω : Type} (a b : RunState ω) : Prop :=
  a.st = b.st ∧ a.pipe = b.pipe ∧ a.fails = b.fails ∧ a.errors = b.errors ∧
  a.world = b.world ∧ drop_cleanup_reports a.out = drop_cleanup_reports b.out

/-- Two runs that end the same way, in states that differ at most in reports
of a failed cleanup. -/
def same_runs {ω : Type} : Run ω (RunState ω) → Run ω (RunState ω) → Prop
  | .ok a, .ok b => same_but_cleanup a b
  | .error (f, a), .error (g, b) => f = g ∧ same_but_cleanup a b
  | _, _ => False

/-- Two calls of `suite_run` that end the same way, with the same counts, and
differ at most in reports of a failed cleanup. -/
def same_reports {ω : Type} : Run ω (Report ω) → Run ω (Report ω) → Prop
  | .ok a, .ok b =>
      a.successes = b.successes ∧ a.fails = b.fails ∧ a.errors = b.errors ∧ a.tot = b.tot ∧
      a.world = b.world ∧ drop_cleanup_reports a.out = drop_cleanup_reports b.out
  | .error (f, a), .error (g, b) => f = g ∧ same_but_cleanup a b
  | _, _ => False

/-- A test case whose function never calls `exit`, whatever it is handed. -/
def never_quits {ω : Type} (tc : Test_case ω) : Prop :=
  ∀ st w code, (tc.func st w).1 ≠ .quit code

/-! ## Example procedures, tests and suites -/

/-- A test whose single assertion holds. -/
def ex_pass {ω : Type} : TestFun ω :=
  TEST_CASE [_assert (fun _ => true) "assert(1 == 1, one)"]

/-- A test with two false assertions and a counter (the world) that is
incremented before each of them. -/
def ex_fail_twice : TestFun Nat :=
  TEST_CASE [.exec (· + 1), _assert (fun _ => false) "assert(1 == 2, first)",
             .exec (· + 1), _assert (fun _ => false) "assert(2 == 3, second)"]

/-- A test function whose body is `__s->invalid = "bad"; fail (x);`. -/
def ex_both : TestFun Unit :=
  fun s w => TEST_CASE [_fail "x"] { s with invalid := some "bad" } w

/-- A test function that dereferences an invalid location: the child is
killed by signal 11. -/
def ex_segv {ω : Type} : TestFun ω :=
  fun _ w => (.killed 11, w)

/-- A test function that calls `exit (3)`. -/
def ex_exit : TestFun Unit :=
  fun _ w => (.quit 3, w)

/-- A procedure that returns. -/
def ex_proc_ok {ω : Type} : Proc ω :=
  fun w => (.returned (), w)

/-- A procedure that is killed by signal 11. -/
def ex_proc_segv {ω : Type} : Proc ω :=
  fun w => (.killed 11, w)

/-- A procedure that calls `exit (1)`. -/
def ex_proc_exit {ω : Type} : Proc ω :=
  fun w => (.quit 1, w)

/-- A procedure that counts its calls in the world and is killed by signal 11
on the first of them only. -/
def ex_proc_once : Proc Nat :=
  fun w => (if w = 0 then .killed 11 else .returned (), w + 1)

/-- A suite with the procedure `ex_proc_once` before each of its two tests. -/
def ex_suite_once : Suite Nat :=
  register (suite_new "S" (some ex_proc_once) none) [(ex_pass, "a"), (ex_pass, "b")]

/-- A suite with no procedure before its one passing test and the procedure
`ex_proc_segv` after it. -/
def ex_suite_cleanup : Suite Unit :=
  register (suite_new "S" none (some ex_proc_segv)) [(ex_pass, "a")]

/-- A suite of three tests: one passes, one crashes, one fails. -/
def ex_suite_mixed : Suite Nat :=
  register (suite_new "S" none none) [(ex_pass, "a"), (ex_segv, "b"), (ex_fail_twice, "c")]

/-- The operations of `double` on the values that are integers of magnitude
below 10000000, which `double` holds exactly: there the difference, the
absolute value and the comparisons are those of the integers, and `%.6e`
needs no rounding. -/
def int_ops : DoubleOps Int where
  zero := 0
  sub := fun x y => x - y
  fabs := fun x => Int.natAbs x
  lt := fun x y => decide (x < y)
  le := fun x y => decide (x ≤ y)
  gt := fun x y => decide (x > y)
  fmt_e := fun x =>
    let ds := Nat.toDigits 10 x.natAbs
    let frac := (ds.drop 1 ++ List.replicate 6 '0').take 6
    let e := ds.length - 1
    (if x < 0 then "-" else "") ++ String.mk (ds.take 1) ++ "." ++ String.mk frac ++
      "e+0" ++ toString e

/-- A test function with an empty body that notes, in the world, the Status
it is handed. -/
def ex_probe : TestFun (List Status) :=
  fun s w => (.returned s, w ++ [s])

/-- A test function that notes the Status it is handed and then makes an
assertion that holds. -/
def ex_probe_pass : TestFun (List Status) :=
  fun s w => TEST_CASE [_assert (fun _ => true) "assert(1 == 1, one)"] s (w ++ [s])

/-- A test function whose body is `__s->invalid = "bad";`. -/
def ex_leave_invalid {ω : Type} : TestFun ω :=
  fun s w => (.returned { s with invalid := some "bad" }, w)

/-- A test whose body is `assert_equals_flo (1.0, 1.0, 0.0, m);`. -/
def ex_zero_tol {ω : Type} : TestFun ω :=
  TEST_CASE_single (_assert_equals_flo int_ops 1 1 0 "assert_equals_flo(1.0, 1.0, 0.0, m)")

/-- The array `{1, 2, 3}`. -/
def ex_x : Nat → Int :=
  fun i => [1, 2, 3].getD i 0

/-- The array `{1, 2, 4}`. -/
def ex_y : Nat → Int :=
  fun i => [1, 2, 4].getD i 0

/-- A test case whose body is `assert_equals_array_int (x, y, len, m);` on the
arrays `{1, 2, 3}` and `{1, 2, 4}`. -/
def ex_array_case (len : Int) : Test_case Unit :=
  { func := TEST_CASE_single
      (_assert_equals_array_int ex_x ex_y len "assert_equals_array_int(x, y, len, m)"),
    name := "t" }

/-- A test whose body is `assert_equals_array_flo (x, x, 3, -1.0, m);` on the
array `{1.0, 2.0, 3.0}`. -/
def ex_negative_tol {ω : Type} : TestFun ω :=
  TEST_CASE_single
    (_assert_equals_array_flo int_ops ex_x ex_x 3 (-1)
      "assert_equals_array_flo(x, x, 3, -1.0, m)")

/-- The list of the items 1, 2, 3, pushed in this order with `ll_push_front`. -/
def ex_list : ll_list Nat :=
  ll_push_front (ll_push_front (ll_push_front ll_init 1) 2) 3

/-! ## Lemmas -/

section Lemmas

variable {ω : Type}

/-- Function `ll_push_front` links the new node after the last one. -/
theorem ll_push_front_eq {α : Type} (l : ll_list α) (d : α) :
    ll_push_front l d = { root := l.root ++ [d], size := l.size + 1 } := by
  unfold ll_push_front
  cases h : l.root <;> simp

/-- After registration the suite keeps its name and procedures, and its list
holds the registered test cases after the earlier ones, in the order of the
calls. -/
theorem register_fields (s : Suite ω) (ts : List (TestFun ω × String)) :
    (register s ts).name = s.name ∧ (register s ts).before = s.before ∧
    (register s ts).after = s.after ∧
    (register s ts).asserts =
      { root := s.asserts.root ++ ts.map new_case, size := s.asserts.size + ts.length } := by
  induction ts generalizing s with
  | nil => simp [register]
  | cons t ts ih =>
    have h := ih (suite_add s t.1 t.2)
    simp only [register, List.foldl_cons] at h ⊢
    refine ⟨h.1, h.2.1, h.2.2.1, ?_⟩
    rw [h.2.2.2]
    simp [suite_add, ll_push_front_eq, new_case, List.append_assoc]
    omega

/-- On an iterator at the head of `tcs`, as many iterations as `tcs` has nodes
run the test cases of `tcs` first to last. -/
theorem suite_loop_run_in_order (s : Suite ω) (l : ll_list (Test_case ω))
    (tcs : List (Test_case ω)) (σ : RunState ω) :
    suite_loop s tcs.length { l := l, next := tcs } σ = run_in_order s tcs σ := by
  induction tcs generalizing σ with
  | nil => rfl
  | cons tc rest ih =>
    cases rest with
    | nil =>
      simp only [List.length_cons, List.length_nil, suite_loop, ll_next, run_in_order]
    | cons tc2 rest =>
      simp only [List.length_cons, suite_loop, ll_next, run_in_order]
      cases h : run_test_case s tc σ.reset_failed with
      | error e => rfl
      | ok σ1 =>
        have := ih σ1
        simp only [List.length_cons] at this
        simpa [run_in_order] using this

/-- The `BEFORE_TEST` part neither reads the error count nor the events. -/
theorem before_phase_shift (s : Suite ω) (tc : Test_case ω) (σ : RunState ω) (k : Int)
    (x : List Event) :
    before_phase s tc (σ.shift k x) =
      ((before_phase s tc σ).1, (before_phase s tc σ).2.shift k x) := by
  unfold before_phase
  cases s.before with
  | none => rfl
  | some bef =>
    simp only [RunState.shift]
    rcases h : (bef σ.world).1 with _ | sig | code <;>
      simp [wait_status, WIFSIGNALED, WIFEXITED, add_right_comm, List.append_assoc]

/-- The test part neither reads the error count nor the events. -/
theorem test_phase_shift (s : Suite ω) (tc : Test_case ω) (σ : RunState ω) (k : Int)
    (x : List Event) :
    test_phase s tc (σ.shift k x) =
      ((test_phase s tc σ).1, (test_phase s tc σ).2.shift k x) := by
  unfold test_phase
  simp only [RunState.shift]
  rcases h : (tc.func σ.st σ.world).1 with _ | sig | code <;>
    simp [wait_status, WIFSIGNALED, WIFEXITED, add_right_comm, List.append_assoc]

/-- The `AFTER_TEST` part neither reads the error count nor the events. -/
theorem after_phase_shift (s : Suite ω) (tc : Test_case ω) (σ : RunState ω) (k : Int)
    (x : List Event) :
    after_phase s tc (σ.shift k x) = (after_phase s tc σ).shift k x := by
  unfold after_phase
  cases s.after with
  | none => rfl
  | some aft =>
    simp only [RunState.shift]
    rcases h : (aft σ.world).1 with _ | sig | code <;>
      simp [wait_status, WIFSIGNALED, WIFEXITED, add_right_comm, List.append_assoc]

/-- Counting the result neither reads the error count nor the events. -/
theorem tally_shift (s : Suite ω) (tc : Test_case ω) (σ : RunState ω) (k : Int)
    (x : List Event) :
    tally s tc (σ.shift k x) = (tally s tc σ).shift k x := by
  unfold tally
  simp only [RunState.shift]
  by_cases hf : σ.st.failed = 0 <;> by_cases hi : σ.st.invalid = none <;>
    simp [hf, hi, add_right_comm, List.append_assoc]

/-- Reading and counting the result neither reads the error count nor the
events. -/
theorem collect_shift (s : Suite ω) (tc : Test_case ω) (σ : RunState ω) (k : Int)
    (x : List Event) :
    collect s tc (σ.shift k x) = shift_run k x (collect s tc σ) := by
  unfold collect
  cases h : σ.pipe with
  | nil => simp [RunState.shift, h, shift_run, RunState.emit, List.append_assoc]
  | cons r rest =>
    have := tally_shift s tc { σ with st := r, pipe := rest, out := σ.out ++ [.read] } k x
    simp only [RunState.shift, h, shift_run, List.append_assoc] at this ⊢
    rw [this]

/-- The loop body neither reads the error count nor the events. -/
theorem run_test_case_shift (s : Suite ω) (tc : Test_case ω) (σ : RunState ω) (k : Int)
    (x : List Event) :
    run_test_case s tc (σ.shift k x) = shift_run k x (run_test_case s tc σ) := by
  unfold run_test_case
  rw [before_phase_shift]
  rcases hb : before_phase s tc σ with ⟨b, σ1⟩
  cases b with
  | true => rfl
  | false =>
    simp only
    rw [test_phase_shift]
    rcases ht : test_phase s tc σ1 with ⟨b2, σ2⟩
    cases b2 with
    | true => rfl
    | false =>
      simp only
      rw [after_phase_shift, collect_shift]

/-- The loop neither reads the error count nor the events: errors counted
and events emitted before it starts are carried to its end unchanged. -/
theorem suite_loop_shift (s : Suite ω) (n : Nat) (it : ll_iterator (Test_case ω))
    (σ : RunState ω) (k : Int) (x : List Event) :
    suite_loop s n it (σ.shift k x) = shift_run k x (suite_loop s n it σ) := by
  induction n generalizing it σ with
  | zero => rfl
  | succ n ih =>
    simp only [suite_loop]
    cases hn : ll_next it with
    | none => rfl
    | some p =>
      rcases p with ⟨tc, it1⟩
      simp only
      have hr : (σ.shift k x).reset_failed = σ.reset_failed.shift k x := rfl
      rw [hr, run_test_case_shift]
      cases hrun : run_test_case s tc σ.reset_failed with
      | error e => rfl
      | ok σ1 => simp only [shift_run]; exact ih it1 σ1

/-- Dropping cleanup reports distributes over `++`. -/
theorem drop_cleanup_reports_append (a b : List Event) :
    drop_cleanup_reports (a ++ b) = drop_cleanup_reports a ++ drop_cleanup_reports b := by
  simp [drop_cleanup_reports]

/-- Nothing to drop in an empty list. -/
theorem drop_cleanup_reports_nil : drop_cleanup_reports [] = [] := rfl

/-- Dropping cleanup reports, one event at a time. -/
theorem drop_cleanup_reports_cons (e : Event) (l : List Event) :
    drop_cleanup_reports (e :: l) =
      if e.is_cleanup_report then drop_cleanup_reports l else e :: drop_cleanup_reports l := by
  cases h : e.is_cleanup_report <;> simp [drop_cleanup_reports, h]

/-- The `BEFORE_TEST` part does not look at the after-procedure. -/
theorem before_phase_same (s : Suite ω) (a1 a2 : Option (Proc ω)) (tc : Test_case ω)
    (σ1 σ2 : RunState ω) (h : same_but_cleanup σ1 σ2) :
    (before_phase { s with after := a1 } tc σ1).1 = (before_phase { s with after := a2 } tc σ2).1 ∧
    same_but_cleanup (before_phase { s with after := a1 } tc σ1).2
      (before_phase { s with after := a2 } tc σ2).2 := by
  rcases σ1 with ⟨st1, pipe1, f1, e1, out1, w1⟩
  rcases σ2 with ⟨st2, pipe2, f2, e2, out2, w2⟩
  rcases h with ⟨h1, h2, h3, h4, h5, h6⟩
  simp only at h1 h2 h3 h4 h5 h6
  subst h1 h2 h3 h4 h5
  unfold before_phase
  cases s.before with
  | none => exact ⟨rfl, rfl, rfl, rfl, rfl, rfl, h6⟩
  | some bef =>
    simp only
    rcases h : (bef w1).1 with _ | sig | code <;>
      simp [wait_status, WIFSIGNALED, WIFEXITED, same_but_cleanup, drop_cleanup_reports_append, h6]

/-- The test part does not look at the after-procedure. -/
theorem test_phase_same (s : Suite ω) (a1 a2 : Option (Proc ω)) (tc : Test_case ω)
    (σ1 σ2 : RunState ω) (h : same_but_cleanup σ1 σ2) :
    (test_phase { s with after := a1 } tc σ1).1 = (test_phase { s with after := a2 } tc σ2).1 ∧
    same_but_cleanup (test_phase { s with after := a1 } tc σ1).2
      (test_phase { s with after := a2 } tc σ2).2 := by
  rcases σ1 with ⟨st1, pipe1, f1, e1, out1, w1⟩
  rcases σ2 with ⟨st2, pipe2, f2, e2, out2, w2⟩
  rcases h with ⟨h1, h2, h3, h4, h5, h6⟩
  simp only at h1 h2 h3 h4 h5 h6
  subst h1 h2 h3 h4 h5
  unfold test_phase
  simp only
  rcases h : (tc.func st1 w1).1 with _ | sig | code <;>
    simp [wait_status, WIFSIGNALED, WIFEXITED, same_but_cleanup, drop_cleanup_reports_append, h6]

/-- After-procedures that leave the same world differ in cleanup reports only. -/
theorem after_phase_same (s : Suite ω) (a1 a2 : Proc ω) (tc : Test_case ω)
    (hworld : ∀ w, (a1 w).2 = (a2 w).2)
    (σ1 σ2 : RunState ω) (h : same_but_cleanup σ1 σ2) :
    same_but_cleanup (after_phase { s with after := some a1 } tc σ1)
      (after_phase { s with after := some a2 } tc σ2) := by
  rcases σ1 with ⟨st1, pipe1, f1, e1, out1, w1⟩
  rcases σ2 with ⟨st2, pipe2, f2, e2, out2, w2⟩
  rcases h with ⟨h1, h2, h3, h4, h5, h6⟩
  simp only at h1 h2 h3 h4 h5 h6
  subst h1 h2 h3 h4 h5
  unfold after_phase
  simp only
  rcases h : (a1 w1).1 with _ | sig | code <;> rcases h' : (a2 w1).1 with _ | sig' | code' <;>
    simp [wait_status, WIFSIGNALED, WIFEXITED, same_but_cleanup, drop_cleanup_reports_append, h6,
      hworld, drop_cleanup_reports_nil, drop_cleanup_reports_cons, Event.is_cleanup_report]

/-- Counting the result does not look at the after-procedure. -/
theorem tally_same (s : Suite ω) (a1 a2 : Option (Proc ω)) (tc : Test_case ω)
    (σ1 σ2 : RunState ω) (h : same_but_cleanup σ1 σ2) :
    same_but_cleanup (tally { s with after := a1 } tc σ1) (tally { s with after := a2 } tc σ2) := by
  rcases σ1 with ⟨st1, pipe1, f1, e1, out1, w1⟩
  rcases σ2 with ⟨st2, pipe2, f2, e2, out2, w2⟩
  rcases h with ⟨h1, h2, h3, h4, h5, h6⟩
  simp only at h1 h2 h3 h4 h5 h6
  subst h1 h2 h3 h4 h5
  unfold tally
  by_cases hf : st1.failed = 0 <;> by_cases hi : st1.invalid = none <;>
    simp [hf, hi, same_but_cleanup, drop_cleanup_reports_append, h6]

/-- Reading and counting the result does not look at the after-procedure. -/
theorem collect_same (s : Suite ω) (a1 a2 : Option (Proc ω)) (tc : Test_case ω)
    (σ1 σ2 : RunState ω) (h : same_but_cleanup σ1 σ2) :
    same_runs (collect { s with after := a1 } tc σ1) (collect { s with after := a2 } tc σ2) := by
  unfold collect
  have hp := h.2.1
  cases h1 : σ1.pipe with
  | nil =>
    rw [← hp, h1]
    rcases h with ⟨h1, h2, h3, h4, h5, h6⟩
    simp [same_runs, same_but_cleanup, RunState.emit, drop_cleanup_reports_append, *]
  | cons r rest =>
    rw [← hp, h1]
    simp only [same_runs]
    apply tally_same
    rcases h with ⟨h1, h2, h3, h4, h5, h6⟩
    simp [same_but_cleanup, drop_cleanup_reports_append, *]

/-- One loop body under two after-procedures that leave the same world. -/
theorem run_test_case_same (s : Suite ω) (a1 a2 : Proc ω) (tc : Test_case ω)
    (hworld : ∀ w, (a1 w).2 = (a2 w).2)
    (σ1 σ2 : RunState ω) (h : same_but_cleanup σ1 σ2) :
    same_runs (run_test_case { s with after := some a1 } tc σ1)
      (run_test_case { s with after := some a2 } tc σ2) := by
  unfold run_test_case
  have hb := before_phase_same s (some a1) (some a2) tc σ1 σ2 h
  rcases h1 : before_phase { s with after := some a1 } tc σ1 with ⟨b1, τ1⟩
  rcases h2 : before_phase { s with after := some a2 } tc σ2 with ⟨b2, τ2⟩
  rw [h1, h2] at hb
  simp only at hb
  rcases hb with ⟨hbb, hτ⟩
  subst hbb
  cases b1 with
  | true => exact hτ
  | false =>
    simp only
    have ht := test_phase_same s (some a1) (some a2) tc τ1 τ2 hτ
    rcases h3 : test_phase { s with after := some a1 } tc τ1 with ⟨c1, υ1⟩
    rcases h4 : test_phase { s with after := some a2 } tc τ2 with ⟨c2, υ2⟩
    rw [h3, h4] at ht
    simp only at ht
    rcases ht with ⟨hcc, hυ⟩
    subst hcc
    cases c1 with
    | true => exact hυ
    | false =>
      simp only
      exact collect_same s _ _ tc _ _ (after_phase_same s a1 a2 tc hworld υ1 υ2 hυ)

/-- The loop under two after-procedures that leave the same world. -/
theorem suite_loop_same (s : Suite ω) (a1 a2 : Proc ω)
    (hworld : ∀ w, (a1 w).2 = (a2 w).2) (n : Nat) (it : ll_iterator (Test_case ω))
    (σ1 σ2 : RunState ω) (h : same_but_cleanup σ1 σ2) :
    same_runs (suite_loop { s with after := some a1 } n it σ1)
      (suite_loop { s with after := some a2 } n it σ2) := by
  induction n generalizing it σ1 σ2 with
  | zero => exact h
  | succ n ih =>
    have hr : same_but_cleanup σ1.reset_failed σ2.reset_failed := by
      rcases h with ⟨h1, h2, h3, h4, h5, h6⟩
      exact ⟨by simp [RunState.reset_failed, h1], h2, h3, h4, h5, h6⟩
    simp only [suite_loop]
    cases hn : ll_next it with
    | none => exact ⟨rfl, hr⟩
    | some p =>
      rcases p with ⟨tc, it1⟩
      simp only
      have hs := run_test_case_same s a1 a2 tc hworld _ _ hr
      cases h1 : run_test_case { s with after := some a1 } tc σ1.reset_failed with
      | error e1 =>
        cases h2 : run_test_case { s with after := some a2 } tc σ2.reset_failed with
        | error e2 => rw [h1, h2] at hs; exact hs
        | ok τ2 => rw [h1, h2] at hs; exact hs.elim
      | ok τ1 =>
        cases h2 : run_test_case { s with after := some a2 } tc σ2.reset_failed with
        | error e2 => rw [h1, h2] at hs; exact hs.elim
        | ok τ2 => rw [h1, h2] at hs; exact ih it1 τ1 τ2 hs

/-- Statements that run to their end hand their Status and world to the
statements that follow. -/
theorem exec_stmts_append_ok (pre rest : List (Stmt ω)) (s s1 : Status) (w w1 : ω)
    (h : exec_stmts pre s w = .ok (s1, w1)) :
    exec_stmts (pre ++ rest) s w = exec_stmts rest s1 w1 := by
  induction pre generalizing s w with
  | nil =>
    simp only [exec_stmts, Except.ok.injEq, Prod.mk.injEq] at h
    rw [h.1, h.2, List.nil_append]
  | cons stmt pre ih =>
    cases stmt with
    | check upd =>
      simp only [exec_stmts, List.cons_append] at h ⊢
      split at h
      · cases h
      · rename_i hz
        rw [if_neg hz]
        exact ih _ _ h
    | fail text => simp only [exec_stmts] at h; cases h
    | exec f =>
      simp only [exec_stmts, List.cons_append] at h ⊢
      exact ih _ _ h

/-- A `BEFORE_TEST` part that does not end in `continue` leaves the Status,
the pipe and the counts as they were. -/
theorem before_phase_false (s : Suite ω) (tc : Test_case ω) (σ τ : RunState ω)
    (h : before_phase s tc σ = (false, τ)) :
    τ.st = σ.st ∧ τ.pipe = σ.pipe ∧ τ.fails = σ.fails ∧ τ.errors = σ.errors := by
  unfold before_phase at h
  cases hb : s.before with
  | none =>
    rw [hb] at h
    simp only [Prod.mk.injEq, true_and] at h
    subst h
    exact ⟨rfl, rfl, rfl, rfl⟩
  | some bef =>
    rw [hb] at h
    simp only at h
    rcases hr : (bef σ.world).1 with _ | sig | code <;> rw [hr] at h <;>
      simp [wait_status, WIFSIGNALED, WIFEXITED] at h <;>
      (subst h; exact ⟨rfl, rfl, rfl, rfl⟩)

/-- The `BEFORE_TEST` part when its child is killed by a signal. -/
theorem before_phase_killed (s : Suite ω) (bef : Proc ω) (tc : Test_case ω) (σ : RunState ω)
    (sig : Nat) (w1 : ω) (hb : s.before = some bef) (hk : bef σ.world = (.killed sig, w1)) :
    before_phase s tc σ =
      (true, { σ with errors := σ.errors + 1,
                      out := σ.out ++ [.fork .before tc.name,
                                       .before_signaled s.name tc.name sig],
                      world := w1 }) := by
  unfold before_phase
  rw [hb]
  simp [hk, wait_status, WIFSIGNALED, WTERMSIG]

/-- The test part when its child is killed by a signal. -/
theorem test_phase_killed (s : Suite ω) (tc : Test_case ω) (σ : RunState ω)
    (sig : Nat) (w1 : ω) (hk : tc.func σ.st σ.world = (.killed sig, w1)) :
    test_phase s tc σ =
      (true, { σ with errors := σ.errors + 1,
                      out := σ.out ++ [.fork .test tc.name, .test_signaled s.name tc.name sig],
                      world := w1 }) := by
  unfold test_phase
  simp [hk, wait_status, WIFSIGNALED, WTERMSIG]

/-- The test part when the test function returns. -/
theorem test_phase_returned (s : Suite ω) (tc : Test_case ω) (σ : RunState ω)
    (st1 : Status) (w1 : ω) (hr : tc.func σ.st σ.world = (.returned st1, w1)) :
    test_phase s tc σ =
      (false, { σ with pipe := σ.pipe ++ [st1], out := σ.out ++ [.fork .test tc.name],
                       world := w1 }) := by
  unfold test_phase
  simp [hr, wait_status, WIFSIGNALED, WIFEXITED]

/-- The `AFTER_TEST` part leaves the Status, the pipe and the counts as they
were. -/
theorem after_phase_frame (s : Suite ω) (tc : Test_case ω) (σ : RunState ω) :
    (after_phase s tc σ).st = σ.st ∧ (after_phase s tc σ).pipe = σ.pipe ∧
    (after_phase s tc σ).fails = σ.fails ∧ (after_phase s tc σ).errors = σ.errors := by
  unfold after_phase
  cases s.after with
  | none => exact ⟨rfl, rfl, rfl, rfl⟩
  | some aft =>
    simp only
    split
    · exact ⟨rfl, rfl, rfl, rfl⟩
    · split <;> exact ⟨rfl, rfl, rfl, rfl⟩

/-- What the two tests of cutest.c 257-277 add to the counts. -/
theorem tally_counts (s : Suite ω) (tc : Test_case ω) (σ : RunState ω) :
    (tally s tc σ).st = σ.st ∧ (tally s tc σ).pipe = σ.pipe ∧
    (tally s tc σ).fails = σ.fails + (if σ.st.failed ≠ 0 then 1 else 0) ∧
    (tally s tc σ).errors = σ.errors + (if σ.st.invalid ≠ none then 1 else 0) ∧
    (tally s tc σ).world = σ.world := by
  unfold tally
  by_cases hf : σ.st.failed = 0 <;> by_cases hi : σ.st.invalid = none <;> simp [hf, hi]

/-- Counting only adds events. -/
theorem tally_out_mono (s : Suite ω) (tc : Test_case ω) (σ : RunState ω) (e : Event)
    (he : e ∈ σ.out) : e ∈ (tally s tc σ).out := by
  unfold tally
  by_cases hf : σ.st.failed = 0 <;> by_cases hi : σ.st.invalid = none <;> simp [hf, hi, he]

/-- The loop body for a test function that returns, on an empty pipe: the
Status it left is the one read and counted. -/
theorem run_test_case_returned (s : Suite ω) (tc : Test_case ω) (σ τ : RunState ω)
    (st1 : Status) (w1 : ω) (hb : before_phase s tc σ = (false, τ)) (hp : τ.pipe = [])
    (hr : tc.func τ.st τ.world = (.returned st1, w1)) :
    ∃ σ', run_test_case s tc σ = .ok σ' ∧ σ'.st = st1 ∧ σ'.pipe = [] ∧
      σ'.fails = σ.fails + (if st1.failed ≠ 0 then 1 else 0) ∧
      σ'.errors = σ.errors + (if st1.invalid ≠ none then 1 else 0) ∧
      (∀ e ∈ (after_phase s tc { τ with pipe := [st1], out := τ.out ++ [.fork .test tc.name],
                                        world := w1 }).out, e ∈ σ'.out) ∧
      σ'.world = (after_phase s tc { τ with pipe := [st1],
                                            out := τ.out ++ [.fork .test tc.name],
                                            world := w1 }).world := by
  have hτ := before_phase_false s tc σ τ hb
  unfold run_test_case
  rw [hb]
  simp only
  rw [test_phase_returned s tc τ st1 w1 hr]
  simp only
  have hf := after_phase_frame s tc
    { τ with pipe := τ.pipe ++ [st1], out := τ.out ++ [.fork .test tc.name], world := w1 }
  simp only [hp, List.nil_append] at hf ⊢
  unfold collect
  rw [hf.2.1]
  simp only
  refine ⟨_, rfl, ?_⟩
  have ht := tally_counts s tc
    { after_phase s tc
        { τ with pipe := [st1], out := τ.out ++ [.fork .test tc.name], world := w1 } with
      st := st1, pipe := [],
      out := (after_phase s tc
        { τ with pipe := [st1], out := τ.out ++ [.fork .test tc.name],
                 world := w1 }).out ++ [.read] }
  simp only at ht
  refine ⟨ht.1, ht.2.1, ?_, ?_, ?_, ht.2.2.2.2⟩
  · rw [ht.2.2.1, hf.2.2.1, hτ.2.2.1]
  · rw [ht.2.2.2.1, hf.2.2.2, hτ.2.2.2]
  · intro e he
    apply tally_out_mono
    exact List.mem_append_left _ he

/-- The `BEFORE_TEST` part does not touch the pipe. -/
theorem before_phase_pipe (s : Suite ω) (tc : Test_case ω) (σ : RunState ω) :
    (before_phase s tc σ).2.pipe = σ.pipe := by
  unfold before_phase
  cases s.before with
  | none => rfl
  | some bef =>
    simp only
    split
    · rfl
    · split <;> rfl

/-- On an empty pipe the loop body of a test function that never calls `exit`
comes to its end, and leaves the pipe empty. -/
theorem run_test_case_total (s : Suite ω) (tc : Test_case ω) (σ : RunState ω)
    (hp : σ.pipe = []) (hq : never_quits tc) :
    ∃ σ', run_test_case s tc σ = .ok σ' ∧ σ'.pipe = [] := by
  have hbp := before_phase_pipe s tc σ
  rcases hb : before_phase s tc σ with ⟨b, τ⟩
  rw [hb] at hbp
  simp only at hbp
  cases b with
  | true =>
    refine ⟨τ, ?_, by rw [hbp, hp]⟩
    unfold run_test_case
    rw [hb]
  | false =>
    rcases hr : tc.func τ.st τ.world with ⟨r, w1⟩
    cases r with
    | returned st1 =>
      obtain ⟨σ', h1, _, h3, _⟩ :=
        run_test_case_returned s tc σ τ st1 w1 hb (by rw [hbp, hp]) hr
      exact ⟨σ', h1, h3⟩
    | killed sig =>
      refine ⟨{ τ with errors := τ.errors + 1,
                       out := τ.out ++ [.fork .test tc.name,
                                        .test_signaled s.name tc.name sig],
                       world := w1 }, ?_, ?_⟩
      · unfold run_test_case
        rw [hb]
        simp only
        rw [test_phase_killed s tc τ sig w1 hr]
      · simp only [hbp, hp]
    | quit code =>
      exact absurd (by rw [hr]) (hq τ.st τ.world code)

/-- Test cases that never call `exit` are all run, from an empty pipe. -/
theorem run_in_order_total (s : Suite ω) (tcs : List (Test_case ω))
    (hq : ∀ tc ∈ tcs, never_quits tc) (σ : RunState ω) (hp : σ.pipe = []) :
    ∃ σ', run_in_order s tcs σ = .ok σ' ∧ σ'.pipe = [] := by
  induction tcs generalizing σ with
  | nil => exact ⟨σ, rfl, hp⟩
  | cons tc rest ih =>
    obtain ⟨σ1, h1, hp1⟩ := run_test_case_total s tc σ.reset_failed hp
      (hq tc (List.mem_cons_self _ _))
    simp only [run_in_order, h1]
    exact ih (fun tc htc => hq tc (List.mem_cons_of_mem _ htc)) σ1 hp1

/-- When `size` is the number of nodes and no test function calls `exit`,
`suite_run` returns. -/
theorem suite_run_returns (s : Suite ω) (w : ω)
    (hsize : s.asserts.size = s.asserts.root.length)
    (hq : ∀ tc ∈ s.asserts.root, never_quits tc) :
    ∃ r, suite_run s w = .ok r := by
  unfold suite_run
  simp only
  split
  · exact ⟨_, rfl⟩
  · obtain ⟨σ', h1, _⟩ := run_in_order_total s s.asserts.root hq (suite_start s w) rfl
    have h2 := suite_loop_run_in_order s s.asserts s.asserts.root (suite_start s w)
    rw [← hsize] at h2
    simp only [ll_get_iterator, h2, h1]
    exact ⟨_, rfl⟩

/-- The scroll splits the nodes into all but the last, and the last. -/
theorem scroll_last_append {α : Type} (d : α) (mid : List α) (e : α) :
    scroll_last d (mid ++ [e]) = (d :: mid, e) := by
  induction mid generalizing d with
  | nil => rfl
  | cons n mid ih =>
    show scroll_last d (n :: (mid ++ [e])) = (d :: n :: mid, e)
    rw [scroll_last, ih n]

/-- A bitwise or of naturals is 0 only when both operands are. -/
theorem nat_lor_eq_zero (m n : Nat) : m ||| n = 0 ↔ m = 0 ∧ n = 0 := by
  constructor
  · intro h
    have hb : ∀ i, (m.testBit i || n.testBit i) = false := by
      intro i
      rw [← Nat.testBit_or, h, Nat.zero_testBit]
    constructor
    · apply Nat.eq_of_testBit_eq
      intro i
      have := hb i
      rw [Nat.zero_testBit]
      cases hm : m.testBit i
      · rfl
      · rw [hm] at this; simp at this
    · apply Nat.eq_of_testBit_eq
      intro i
      have := hb i
      rw [Nat.zero_testBit]
      cases hn : n.testBit i
      · rfl
      · rw [hn] at this; simp at this
  · rintro ⟨rfl, rfl⟩
    rfl

/-- A bitwise or of integers is 0 only when both operands are. -/
theorem int_lor_eq_zero (a b : Int) : Int.lor a b = 0 ↔ a = 0 ∧ b = 0 := by
  cases a with
  | ofNat m =>
    cases b with
    | ofNat n =>
      simp only [Int.lor, Int.ofNat_eq_coe]
      have := nat_lor_eq_zero m n
      constructor
      · intro h
        have h' : m ||| n = 0 := by exact_mod_cast h
        exact ⟨by exact_mod_cast (this.1 h').1, by exact_mod_cast (this.1 h').2⟩
      · rintro ⟨h1, h2⟩
        have h1' : m = 0 := by exact_mod_cast h1
        have h2' : n = 0 := by exact_mod_cast h2
        subst h1' h2'
        rfl
    | negSucc n =>
      simp only [Int.lor]
      constructor
      · intro h; cases h
      · rintro ⟨_, h⟩; cases h
  | negSucc m =>
    cases b with
    | ofNat n =>
      simp only [Int.lor]
      constructor
      · intro h; cases h
      · rintro ⟨h, _⟩; cases h
    | negSucc n =>
      simp only [Int.lor]
      constructor
      · intro h; cases h
      · rintro ⟨h, _⟩; cases h

/-- The loop leaves `failed` at 0 exactly when it finds it at 0 and no
condition holds. -/
theorem or_loop_eq_zero (c : Nat → Bool) (n : Nat) (f : Int) :
    or_loop c n f = 0 ↔ f = 0 ∧ ∀ i, i < n → c i = false := by
  induction n with
  | zero => simp [or_loop]
  | succ n ih =>
    simp only [or_loop, int_lor_eq_zero, ih]
    constructor
    · rintro ⟨⟨hf, hall⟩, hc⟩
      refine ⟨hf, ?_⟩
      intro i hi
      rcases Nat.lt_succ_iff_lt_or_eq.mp hi with h | h
      · exact hall i h
      · subst h
        cases hci : c i
        · rfl
        · rw [hci] at hc; simp at hc
    · rintro ⟨hf, hall⟩
      refine ⟨⟨hf, fun i hi => hall i (Nat.lt_succ_of_lt hi)⟩, ?_⟩
      rw [hall n (Nat.lt_succ_self n)]
      rfl

/-- The nested loops leave `failed` at 0 exactly when they find it at 0 and
no condition holds. -/
theorem or_loop2_eq_zero (c : Nat → Nat → Bool) (n m : Nat) (f : Int) :
    or_loop2 c n m f = 0 ↔ f = 0 ∧ ∀ i, i < m → ∀ j, j < n → c i j = false := by
  induction m with
  | zero => simp [or_loop2]
  | succ m ih =>
    simp only [or_loop2, or_loop_eq_zero, ih]
    constructor
    · rintro ⟨⟨hf, hall⟩, hrow⟩
      refine ⟨hf, ?_⟩
      intro i hi
      rcases Nat.lt_succ_iff_lt_or_eq.mp hi with h | h
      · exact hall i h
      · subst h
        exact hrow
    · rintro ⟨hf, hall⟩
      exact ⟨⟨hf, fun i hi => hall i (Nat.lt_succ_of_lt hi)⟩, hall m (Nat.lt_succ_self m)⟩

/-- On a non-empty chain of nodes, `j` calls of `ll_next` move the iterator
`j` nodes on, but not past the last node. -/
theorem ll_next_iter_nodes {α : Type} (l : ll_list α) (j : Nat) (ns : List α)
    (hne : ns ≠ []) :
    ll_next_iter j { l := l, next := ns } =
      some { l := l, next := ns.drop (min j (ns.length - 1)) } := by
  induction j generalizing ns with
  | zero => simp [ll_next_iter]
  | succ j ih =>
    cases ns with
    | nil => exact absurd rfl hne
    | cons d rest =>
      cases rest with
      | nil =>
        simp only [ll_next_iter, ll_next]
        have := ih [d] (by simp)
        simpa using this
      | cons n rest =>
        simp only [ll_next_iter, ll_next]
        have := ih (n :: rest) (by simp)
        rw [this]
        have hmin : min (j + 1) ((d :: n :: rest).length - 1) =
            min j ((n :: rest).length - 1) + 1 := by
          simp only [List.length_cons]
          omega
        rw [hmin, List.drop_succ_cons]

/-- The `k`-th call of `ll_next` on a new iterator returns the item of the
`k`-th node, and the item of the last node when there are fewer nodes. -/
theorem kth_next_nodes {α : Type} (l : ll_list α) (k : Nat) (hne : l.root ≠ [])
    (hk : 1 ≤ k) :
    kth_next k (ll_get_iterator l) = l.root[min k l.root.length - 1]? := by
  have hlen : 0 < l.root.length := List.length_pos.mpr hne
  unfold kth_next ll_get_iterator
  rw [ll_next_iter_nodes l (k - 1) l.root hne]
  simp only
  have hidx : min (k - 1) (l.root.length - 1) = min k l.root.length - 1 := by omega
  rw [hidx]
  have hlt : min k l.root.length - 1 < l.root.length := by omega
  rw [List.drop_eq_getElem_cons hlt, List.getElem?_eq_getElem hlt]
  unfold ll_next
  simp only
  cases hrest : List.drop (min k l.root.length - 1 + 1) l.root <;> rfl

/-- Function `ll_pop_front` on nodes that end with the item `d`. -/
theorem ll_pop_front_snoc {α : Type} (init : List α) (d : α) (n : Nat) :
    ll_pop_front { root := init ++ [d], size := n } =
      some (d, { root := init, size := size_dec n }) := by
  cases init with
  | nil => rfl
  | cons a init =>
    cases init with
    | nil => rfl
    | cons b init =>
      simp only [ll_pop_front, List.cons_append, scroll_last_append]

/-- The loop of `ll_copy` and `ll_append`, when the iterator has the nodes for
its `n` iterations: the items are linked after those of the destination, in
the order of the nodes. -/
theorem transfer_take {α : Type} (n : Nat) (it : ll_iterator α) (dst : ll_list α)
    (h : n ≤ it.next.length) :
    transfer n it dst =
      .ok { root := dst.root ++ it.next.take n, size := dst.size + n } := by
  induction n generalizing it dst with
  | zero => simp [transfer]
  | succ n ih =>
    rcases it with ⟨l, nodes⟩
    cases nodes with
    | nil => simp at h
    | cons d rest =>
      cases rest with
      | nil =>
        have hn : n = 0 := by simpa using h
        subst hn
        simp [transfer, ll_next, ll_push_front_eq]
      | cons m rest =>
        simp only [transfer, ll_next]
        rw [ih { l := l, next := m :: rest } (ll_push_front dst d) (by simpa using h)]
        simp [ll_push_front_eq, List.append_assoc, Nat.add_assoc, Nat.add_comm 1 n]

/-- The operations other than `ll_pop_pos` keep `size` equal to the number of
nodes. -/
theorem size_is_length_kept {α : Type} (l src : ll_list α) (d : α)
    (hl : size_is_length l) (hs : size_is_length src) :
    size_is_length (ll_init : ll_list α) ∧
    size_is_length (ll_push_front l d) ∧ size_is_length (ll_push_back l d) ∧
    (∀ r, ll_pop_front l = some r → size_is_length r.2) ∧
    (∀ r, ll_pop_back l = some r → size_is_length r.2) ∧
    (∀ r, ll_append l src = .ok r → size_is_length r) ∧
    (∀ r, ll_copy l src = .ok r → size_is_length r) := by
  unfold size_is_length at *
  have htr : ∀ dst : ll_list α, dst.size = dst.root.length →
      ∀ r, transfer src.size (ll_get_iterator src) dst = .ok r → r.size = r.root.length := by
    intro dst hd r hr
    rw [transfer_take _ _ _ (by simp [ll_get_iterator, hs])] at hr
    simp only [Except.ok.injEq] at hr
    rw [← hr]
    simp [ll_get_iterator, hs, hd]
  refine ⟨rfl, ?_, ?_, ?_, ?_, ?_, ?_⟩
  · rw [ll_push_front_eq]
    simp [hl]
  · simp [ll_push_back, hl]
  · intro r hr
    rcases List.eq_nil_or_concat l.root with h | ⟨init, e, h⟩
    · simp [ll_pop_front, h] at hr
    · have hp := ll_pop_front_snoc init e l.size
      have hl' : l = { root := init ++ [e], size := l.size } := by
        cases l
        simp only at h
        simp [h]
      rw [← hl', hr] at hp
      simp only [Option.some.injEq] at hp
      rw [hp]
      simp only
      rw [hl, h]
      simp [size_dec]
  · intro r hr
    cases h : l.root with
    | nil => simp [ll_pop_back, h] at hr
    | cons e rest =>
      simp only [ll_pop_back, h, Option.some.injEq] at hr
      rw [← hr]
      simp only
      rw [hl, h]
      simp [size_dec]
  · intro r hr
    exact htr l hl r hr
  · intro r hr
    unfold ll_copy at hr
    split at hr
    · cases hr
    · cases hr
    · exact htr ll_init rfl r hr

/-- With `failed` at 0 before the call and valid sizes,
`__assert_equals_matrix_int` sets `failed` exactly when some element
differs. -/
theorem matrix_int_from_clear (m n : Int) (x y : Nat → Nat → Int) (s : Status)
    (hm : 1 ≤ m) (hn : 1 ≤ n) (hf : s.failed = 0) :
    ∃ s', __assert_equals_matrix_int m n x y s = .ok s' ∧ s'.invalid = none ∧
      (s'.failed ≠ 0 ↔ ∃ i j : Nat, (i : Int) < m ∧ (j : Int) < n ∧ x i j ≠ y i j) := by
  refine ⟨{ s with failed := or_loop2 (fun i j => x i j != y i j) n.toNat m.toNat s.failed,
                   invalid := none }, ?_, rfl, ?_⟩
  · unfold __assert_equals_matrix_int
    rw [if_neg (by omega)]
  · simp only [Ne, or_loop2_eq_zero, hf, true_and, not_forall]
    constructor
    · rintro ⟨i, hi, j, hj, hc⟩
      refine ⟨i, j, by omega, by omega, ?_⟩
      intro heq
      apply hc
      simp [heq]
    · rintro ⟨i, j, hi, hj, hne⟩
      refine ⟨i, by omega, j, by omega, ?_⟩
      simp [hne]

/-- With a valid length or size, `__assert_equals_array_flo` and
`__assert_equals_matrix_flo` return for every `tol` with `invalid` cleared
and with `failed` given by the comparison of the elements: `tol` is tested
nowhere. This holds whatever the operations on `double` are. -/
theorem flo_tolerance_unchecked {F : Type} (ops : DoubleOps F) (x y : Nat → F) (len : Int)
    (a b : Nat → Nat → F) (m n : Int) (tol : F) (s : Status)
    (hlen : 1 ≤ len) (hm : 1 ≤ m) (hn : 1 ≤ n) :
    (∃ s', __assert_equals_array_flo ops x y len tol s = .ok s' ∧
      s'.invalid = none ∧ s'.assertion = s.assertion ∧
      (s'.failed = 0 ↔
        ∀ i : Nat, (i : Int) < len → ops.gt (ops.fabs (ops.sub (x i) (y i))) tol = false)) ∧
    (∃ s', __assert_equals_matrix_flo ops m n a b tol s = .ok s' ∧
      s'.invalid = none ∧ s'.assertion = s.assertion ∧
      (s'.failed = 0 ↔ s.failed = 0 ∧
        ∀ i j : Nat, (i : Int) < m → (j : Int) < n →
          ops.gt (ops.fabs (ops.sub (a i j) (b i j))) tol = false)) := by
  constructor
  · refine ⟨{ s with
        failed := or_loop (fun i => ops.gt (ops.fabs (ops.sub (x i) (y i))) tol) len.toNat 0,
        invalid := none }, ?_, rfl, rfl, ?_⟩
    · unfold __assert_equals_array_flo
      rw [if_neg (by omega)]
    · simp only [or_loop_eq_zero, true_and]
      constructor
      · intro h i hi
        exact h i (by omega)
      · intro h i hi
        exact h i (by omega)
  · refine ⟨{ s with
        failed := or_loop2 (fun i j => ops.gt (ops.fabs (ops.sub (a i j) (b i j))) tol)
          n.toNat m.toNat s.failed,
        invalid := none }, ?_, rfl, rfl, ?_⟩
    · unfold __assert_equals_matrix_flo
      rw [if_neg (by omega)]
    · simp only [or_loop2_eq_zero]
      constructor
      · rintro ⟨hf, h⟩
        exact ⟨hf, fun i j hi hj => h i (by omega) j (by omega)⟩
      · rintro ⟨hf, h⟩
        exact ⟨hf, fun i hi j hj => h i j (by omega) (by omega)⟩

end Lemmas

/-! ## The claims -/

section Claims

variable {ω : Type}

/-- C1. Evaluation of the code on a test that reaches result collection with
both `failed` and `invalid` set: the two tests of cutest.c 257-277 are
independent, so the test adds one failure and one error, and the suite of
this single test reports -1 successes. -/
theorem both_flags_counted_twice :
    ∃ r, suite_run (register (suite_new "S" none none) [(ex_both, "both")]) () = .ok r ∧
      r.tot = 1 ∧ r.fails = 1 ∧ r.errors = 1 ∧ r.successes = -1 :=
  ⟨_, rfl, rfl, rfl, rfl, rfl⟩

/-- C2. Whenever `suite_run` returns, the counts it reports satisfy
`successes + fails + errors = tot`, where `tot` is the `size` of the list of
test cases; for a suite filled by `suite_add`, that is the number of tests
registered. -/
theorem suite_run_counts_sum (s : Suite ω) (w : ω) (r : Report ω)
    (h : suite_run s w = .ok r) :
    r.successes + r.fails + r.errors = r.tot ∧ r.tot = s.asserts.size ∧
    ∀ name bef aft ts, s = register (suite_new name bef aft) ts → r.tot = ts.length := by
  have key : r.successes + r.fails + r.errors = r.tot ∧ r.tot = s.asserts.size := by
    unfold suite_run at h
    simp only at h
    split at h
    · injection h with h
      subst h
      simp
      omega
    · split at h
      · cases h
      · injection h with h
        subst h
        exact ⟨by simp only; omega, rfl⟩
  refine ⟨key.1, key.2, ?_⟩
  intro name bef aft ts hs
  rw [key.2, hs, (register_fields _ ts).2.2.2]
  simp [suite_new, ll_init]

/-- C2 (example). The suite of three tests `ex_suite_mixed` runs to the end and
reports 1 success, 1 failure and 1 error out of 3. -/
theorem suite_run_counts_sum_witness :
    ∃ r, suite_run ex_suite_mixed 0 = .ok r ∧
      (r.successes, r.fails, r.errors, r.tot) = (1, 1, 1, 3) ∧
      r.successes + r.fails + r.errors = r.tot ∧ r.tot = ex_suite_mixed.asserts.size :=
  ⟨_, rfl, rfl, (suite_run_counts_sum ex_suite_mixed 0 _ rfl).1,
    (suite_run_counts_sum ex_suite_mixed 0 _ rfl).2.1⟩

/-- C3. In a test body, let the statements `pre` run to their end and let the
next statement be an `_assert` whose expression is then false. Whatever the
statements `post` after it are, the function returns at that assertion: the
Status it leaves has `failed` set and holds the text of this assertion, the
world is the one `pre` left (no statement of `post` has run), and `suite_run`
adds one failure and no error for the test. -/
theorem assert_short_circuit (s : Suite ω) (tc : Test_case ω) (σ τ : RunState ω)
    (pre post : List (Stmt ω)) (expr : ω → Bool) (text : String) (s1 : Status) (w1 : ω)
    (hfun : tc.func = TEST_CASE (pre ++ _assert expr text :: post))
    (hbef : before_phase s tc σ = (false, τ))
    (hpipe : τ.pipe = [])
    (hpre : exec_stmts pre τ.st τ.world = .ok (s1, w1))
    (hfalse : expr w1 = false) :
    exec_stmts (pre ++ _assert expr text :: post) τ.st τ.world =
      .error ({ assertion := some text, failed := 1, invalid := none }, w1) ∧
    tc.func τ.st τ.world =
      (.returned { assertion := some text, failed := 1, invalid := none }, w1) ∧
    ∃ σ', run_test_case s tc σ = .ok σ' ∧
      σ'.st = { assertion := some text, failed := 1, invalid := none } ∧
      σ'.fails = σ.fails + 1 ∧ σ'.errors = σ.errors := by
  have hexec : exec_stmts (pre ++ _assert expr text :: post) τ.st τ.world =
      .error ({ assertion := some text, failed := 1, invalid := none }, w1) := by
    rw [exec_stmts_append_ok pre _ _ s1 _ w1 hpre]
    simp [_assert, exec_stmts, hfalse]
  have hret : tc.func τ.st τ.world =
      (.returned { assertion := some text, failed := 1, invalid := none }, w1) := by
    rw [hfun]
    simp only [TEST_CASE, hexec]
  refine ⟨hexec, hret, ?_⟩
  obtain ⟨σ', h1, h2, _, h4, h5, _, _⟩ :=
    run_test_case_returned s tc σ τ _ w1 hbef hpipe hret
  refine ⟨σ', h1, h2, ?_, ?_⟩
  · simpa using h4
  · simpa using h5

/-- C3 (example). The test `ex_fail_twice` returns at its first assertion: the
counter is 1, not 2, and the text is that of the first assertion. -/
theorem assert_short_circuit_witness :
    ex_fail_twice Status.zero 0 =
      (.returned { assertion := some "assert(1 == 2, first)", failed := 1, invalid := none },
        1) :=
  (assert_short_circuit (suite_new "S" none none) { func := ex_fail_twice, name := "c" }
    (suite_start (suite_new "S" none none) 0) (suite_start (suite_new "S" none none) 0)
    [.exec (· + 1)] [.exec (· + 1), _assert (fun _ => false) "assert(2 == 3, second)"]
    (fun _ => false) "assert(1 == 2, first)" Status.zero 1 rfl rfl rfl rfl rfl).2.1

/-- C4. If the child of a test case is killed by a signal, the loop body adds
one error and no failure, forks no cleanup child and reads no Status; the
loop then runs the remaining test cases, and what it gives is what it gives
when started at the next test case, with one more error and with the
events of the killed test put first. -/
theorem test_signal_counts_error (s : Suite ω) (n : Nat) (it it1 : ll_iterator (Test_case ω))
    (tc : Test_case ω) (σ τ : RunState ω) (sig : Nat) (w1 : ω)
    (hnext : ll_next it = some (tc, it1))
    (hbef : before_phase s tc σ.reset_failed = (false, τ))
    (hkill : tc.func τ.st τ.world = (.killed sig, w1)) :
    (∃ σ', run_test_case s tc σ.reset_failed = .ok σ' ∧ σ'.errors = σ.errors + 1 ∧
      σ'.fails = σ.fails ∧ σ'.pipe = σ.pipe ∧
      σ'.out = τ.out ++ [.fork .test tc.name, .test_signaled s.name tc.name sig]) ∧
    suite_loop s (n + 1) it σ =
      shift_run 1 (τ.out ++ [.fork .test tc.name, .test_signaled s.name tc.name sig])
        (suite_loop s n it1 { τ with out := [], world := w1 }) := by
  have hτ := before_phase_false s tc _ τ hbef
  have hstep : run_test_case s tc σ.reset_failed =
      .ok { τ with errors := τ.errors + 1,
                   out := τ.out ++ [.fork .test tc.name, .test_signaled s.name tc.name sig],
                   world := w1 } := by
    unfold run_test_case
    rw [hbef]
    simp only
    rw [test_phase_killed s tc τ sig w1 hkill]
  constructor
  · refine ⟨_, hstep, ?_, ?_, ?_, rfl⟩
    · simp only [hτ.2.2.2]; rfl
    · simp only [hτ.2.2.1]; rfl
    · simp only [hτ.2.1]; rfl
  · simp only [suite_loop, hnext, hstep]
    rw [← suite_loop_shift]
    simp [RunState.shift]

/-- C4 (example). In `ex_suite_mixed` the second test is killed by signal 11:
the run of the last two tests is the run of the last test alone, with one
more error. -/
theorem test_signal_counts_error_witness :
    suite_loop ex_suite_mixed 2
        { l := ex_suite_mixed.asserts, next := ex_suite_mixed.asserts.root.drop 1 }
        (suite_start ex_suite_mixed 0) =
      shift_run 1 [.pipe, .starting "S", .fork .test "b", .test_signaled "S" "b" 11]
        (suite_loop ex_suite_mixed 1
          { l := ex_suite_mixed.asserts, next := ex_suite_mixed.asserts.root.drop 2 }
          { st := Status.zero, pipe := [], fails := 0, errors := 0, out := [], world := 0 }) :=
  (test_signal_counts_error ex_suite_mixed 1
    { l := ex_suite_mixed.asserts, next := ex_suite_mixed.asserts.root.drop 1 }
    { l := ex_suite_mixed.asserts, next := ex_suite_mixed.asserts.root.drop 2 }
    { func := ex_segv, name := "b" } (suite_start ex_suite_mixed 0)
    (suite_start ex_suite_mixed 0) 11 0 rfl rfl rfl).2

/-- C5. For tests registered with `suite_add` on a new suite, the loop of
`suite_run` is the run of the registered tests in the order of their
registration: its i-th iteration runs the i-th test registered. -/
theorem suite_run_registration_order (name : String) (bef aft : Option (Proc ω))
    (ts : List (TestFun ω × String)) (σ : RunState ω) :
    suite_loop (register (suite_new name bef aft) ts)
        (register (suite_new name bef aft) ts).asserts.size
        (ll_get_iterator (register (suite_new name bef aft) ts).asserts) σ =
      run_in_order (register (suite_new name bef aft) ts) (ts.map new_case) σ := by
  have h := (register_fields (suite_new name bef aft) ts).2.2.2
  simp only [suite_new, ll_init, List.nil_append, Nat.zero_add] at h
  have hit : ll_get_iterator (register (suite_new name bef aft) ts).asserts =
      { l := (register (suite_new name bef aft) ts).asserts, next := ts.map new_case } := by
    simp only [ll_get_iterator, suite_new, ll_init, h]
  have hsize : (register (suite_new name bef aft) ts).asserts.size =
      (ts.map new_case).length := by
    simp only [suite_new, ll_init, h, List.length_map]
  rw [hit, hsize]
  exact suite_loop_run_in_order _ _ _ σ

/-- C6. If the child of the before-procedure is killed by a signal, the loop
body adds one error, forks neither the test nor the after-procedure, reads
no Status, and the loop goes on with the next test case. -/
theorem before_signal_skips_test (s : Suite ω) (bef : Proc ω) (n : Nat)
    (it it1 : ll_iterator (Test_case ω)) (tc : Test_case ω) (σ : RunState ω)
    (sig : Nat) (w1 : ω)
    (hbef : s.before = some bef) (hnext : ll_next it = some (tc, it1))
    (hkill : bef σ.world = (.killed sig, w1)) :
    suite_loop s (n + 1) it σ =
      suite_loop s n it1
        { st := { σ.st with failed := 0 }, pipe := σ.pipe, fails := σ.fails,
          errors := σ.errors + 1,
          out := σ.out ++ [.fork .before tc.name, .before_signaled s.name tc.name sig],
          world := w1 } := by
  have hb := before_phase_killed s bef tc σ.reset_failed sig w1 hbef hkill
  simp only [suite_loop, hnext, run_test_case, hb]
  rfl

/-- C6 (example). In `ex_suite_once` the before-procedure is killed for the
first test: the loop goes on with the second test, with one error counted,
the pipe untouched and no further child forked for the first test. -/
theorem before_signal_skips_test_witness :
    suite_loop ex_suite_once 2 (ll_get_iterator ex_suite_once.asserts)
        (suite_start ex_suite_once 0) =
      suite_loop ex_suite_once 1
        { l := ex_suite_once.asserts, next := ex_suite_once.asserts.root.drop 1 }
        { st := Status.zero, pipe := [], fails := 0, errors := 1,
          out := [.pipe, .starting "S", .fork .before "a", .before_signaled "S" "a" 11],
          world := 1 } :=
  before_signal_skips_test ex_suite_once ex_proc_once 1 (ll_get_iterator ex_suite_once.asserts)
    { l := ex_suite_once.asserts, next := ex_suite_once.asserts.root.drop 1 }
    { func := ex_pass, name := "a" } (suite_start ex_suite_once 0) 11 1 rfl rfl rfl

/-- C7. Evaluation of the code on children that call `exit` with a non-zero
status. A child that exits is not signaled and `WIFEXITED` holds for it, so
neither branch that counts an error is taken. With a before-procedure that
calls `exit (1)` the test is forked all the same and counted as a success;
with a test function that calls `exit (3)` the after-procedure is forked and
the Status is read, from a pipe to which nothing was written. -/
theorem exit_status_not_checked :
    (∃ r, suite_run (register (suite_new "S" (some ex_proc_exit) none) [(ex_pass, "t")]) () =
        .ok r ∧ r.successes = 1 ∧ r.errors = 0 ∧
      r.out = [.pipe, .starting "S", .fork .before "t", .fork .test "t", .read,
               .summary "S" 1 0 0 1 6]) ∧
    (∃ σ, suite_run (register (suite_new "S" none (some ex_proc_ok)) [(ex_exit, "t")]) () =
        .error (.blocked, σ) ∧ σ.errors = 0 ∧
      σ.out = [.pipe, .starting "S", .fork .test "t", .fork .after "t", .read]) :=
  ⟨⟨_, rfl, rfl, rfl, rfl⟩, ⟨_, rfl, rfl, rfl⟩⟩

/-- C8. Two after-procedures that leave the same world behind, however each
of them terminates, give the same run: `suite_run` ends the same way, with
the same successes, failures, errors and total, and its events differ at
most in the reports of a failed cleanup. -/
theorem after_termination_irrelevant (s : Suite ω) (a1 a2 : Proc ω) (w : ω)
    (hworld : ∀ v, (a1 v).2 = (a2 v).2) :
    same_reports (suite_run { s with after := some a1 } w)
      (suite_run { s with after := some a2 } w) := by
  unfold suite_run
  simp only
  split
  · exact ⟨rfl, rfl, rfl, rfl, rfl, rfl⟩
  · have h := suite_loop_same s a1 a2 hworld s.asserts.size (ll_get_iterator s.asserts)
      (suite_start { s with after := some a1 } w) (suite_start { s with after := some a2 } w)
      ⟨rfl, rfl, rfl, rfl, rfl, rfl⟩
    cases h1 : suite_loop { s with after := some a1 } s.asserts.size
        (ll_get_iterator s.asserts) (suite_start { s with after := some a1 } w) with
    | error e1 =>
      cases h2 : suite_loop { s with after := some a2 } s.asserts.size
          (ll_get_iterator s.asserts) (suite_start { s with after := some a2 } w) with
      | error e2 => rw [h1, h2] at h; exact h
      | ok τ2 => rw [h1, h2] at h; exact h.elim
    | ok τ1 =>
      cases h2 : suite_loop { s with after := some a2 } s.asserts.size
          (ll_get_iterator s.asserts) (suite_start { s with after := some a2 } w) with
      | error e2 => rw [h1, h2] at h; exact h.elim
      | ok τ2 =>
        rw [h1, h2] at h
        obtain ⟨_, _, h3, h4, h5, h6⟩ := h
        simp only [same_reports, h3, h4, h5, drop_cleanup_reports_append, h6, and_self]

/-- C8 (example). A suite with a passing, a crashing and a passing test gives
the same counts with an after-procedure that returns and with one that is
killed by a signal each time. -/
theorem after_termination_irrelevant_witness :
    same_reports
      (suite_run (register (suite_new "S" none (some ex_proc_ok))
        [(ex_pass, "a"), (ex_segv, "b"), (ex_pass, "c")]) ())
      (suite_run (register (suite_new "S" none (some ex_proc_segv))
        [(ex_pass, "a"), (ex_segv, "b"), (ex_pass, "c")]) ()) :=
  after_termination_irrelevant
    (register (suite_new "S" none none) [(ex_pass, "a"), (ex_segv, "b"), (ex_pass, "c")])
    ex_proc_ok ex_proc_segv () (fun _ => rfl)

/-- C9 (as stated). A suite whose after-procedure is killed by a signal after a
passing test: the failed cleanup is reported, no error is counted and the
test is a success. -/
theorem after_signal_tallies_no_error :
    ∃ r, suite_run (register (suite_new "S" none (some ex_proc_segv)) [(ex_pass, "a")]) () =
        .ok r ∧ r.errors = 0 ∧ r.successes = 1 ∧
      r.out = [.pipe, .starting "S", .fork .test "a", .fork .after "a",
               .after_signaled "S" "a" 11, .read, .summary "S" 1 0 0 1 6] :=
  ⟨_, rfl, rfl, rfl, rfl⟩

/-- C9 (amended). Two statements about every suite, each on its own. If the
child of the before-procedure is killed by a signal for a test, the loop body
counts one error and no failure for it and leaves the Status and the pipe as
they were. If the child of the after-procedure is killed by a signal for a
test whose function returned, the failed cleanup is reported and the counts
move by the Status of the test alone: no error is counted for the cleanup.
In both cases the loop goes on with the next test case. -/
theorem abnormal_setup_cleanup (s : Suite ω) :
    (∀ (bef : Proc ω) (n : Nat) (it it1 : ll_iterator (Test_case ω)) (tc : Test_case ω)
        (σ : RunState ω) (sig : Nat) (w1 : ω),
      s.before = some bef → ll_next it = some (tc, it1) →
      bef σ.world = (.killed sig, w1) →
      ∃ σ', suite_loop s (n + 1) it σ = suite_loop s n it1 σ' ∧
        σ'.errors = σ.errors + 1 ∧ σ'.fails = σ.fails ∧
        σ'.st = { σ.st with failed := 0 } ∧ σ'.pipe = σ.pipe ∧ σ'.world = w1 ∧
        Event.before_signaled s.name tc.name sig ∈ σ'.out) ∧
    (∀ (aft : Proc ω) (m : Nat) (jt jt1 : ll_iterator (Test_case ω)) (uc : Test_case ω)
        (ρ τ : RunState ω) (sig2 : Nat) (w2 w3 : ω) (st1 : Status),
      s.after = some aft → ll_next jt = some (uc, jt1) →
      before_phase s uc ρ.reset_failed = (false, τ) → τ.pipe = [] →
      uc.func τ.st τ.world = (.returned st1, w2) →
      aft w2 = (.killed sig2, w3) →
      ∃ ρ', suite_loop s (m + 1) jt ρ = suite_loop s m jt1 ρ' ∧
        ρ'.errors = ρ.errors + (if st1.invalid ≠ none then 1 else 0) ∧
        ρ'.fails = ρ.fails + (if st1.failed ≠ 0 then 1 else 0) ∧
        ρ'.st = st1 ∧ ρ'.pipe = [] ∧ ρ'.world = w3 ∧
        Event.after_signaled s.name uc.name sig2 ∈ ρ'.out) := by
  constructor
  · intro bef n it it1 tc σ sig w1 hbef hnext hkill
    have hb := before_phase_killed s bef tc σ.reset_failed sig w1 hbef hkill
    refine ⟨{ σ.reset_failed with
        errors := σ.reset_failed.errors + 1,
        out := σ.reset_failed.out ++
          [.fork .before tc.name, .before_signaled s.name tc.name sig],
        world := w1 }, ?_, rfl, rfl, rfl, rfl, rfl, ?_⟩
    · simp only [suite_loop, hnext, run_test_case, hb]
    · simp
  · intro aft m jt jt1 uc ρ τ sig2 w2 w3 st1 haft hnext2 hset hpipe hret hkill2
    obtain ⟨ρ', h1, h2, h3, h4, h5, h6, h7⟩ :=
      run_test_case_returned s uc ρ.reset_failed τ st1 w2 hset hpipe hret
    have hafter : after_phase s uc
        { τ with pipe := [st1], out := τ.out ++ [.fork .test uc.name], world := w2 } =
        { τ with pipe := [st1],
                 out := τ.out ++ [.fork .test uc.name] ++
                   [.fork .after uc.name, .after_signaled s.name uc.name sig2],
                 world := w3 } := by
      unfold after_phase
      rw [haft]
      simp [hkill2, wait_status, WIFSIGNALED, WTERMSIG]
    rw [hafter] at h6 h7
    refine ⟨ρ', ?_, h5, h4, h2, h3, h7, ?_⟩
    · simp only [suite_loop, hnext2, h1]
    · apply h6
      simp

/-- C9 (example). In `ex_suite_once`, which has no after-procedure, the
before-procedure is killed for the first test, which gets one error, and the
loop goes on with the second test. In `ex_suite_cleanup`, which has no
before-procedure, the after-procedure is killed after the passing test: the
failed cleanup is reported and the counts stay at no error and no failure. -/
theorem abnormal_setup_cleanup_witness :
    (∃ σ', suite_loop ex_suite_once 2 (ll_get_iterator ex_suite_once.asserts)
        (suite_start ex_suite_once 0) =
          suite_loop ex_suite_once 1
            { l := ex_suite_once.asserts, next := ex_suite_once.asserts.root.drop 1 } σ' ∧
      σ'.errors = 1 ∧ σ'.fails = 0 ∧ σ'.st = Status.zero ∧ σ'.pipe = [] ∧ σ'.world = 1 ∧
      Event.before_signaled "S" "a" 11 ∈ σ'.out) ∧
    (∃ ρ', suite_loop ex_suite_cleanup 1 (ll_get_iterator ex_suite_cleanup.asserts)
        (suite_start ex_suite_cleanup ()) =
          suite_loop ex_suite_cleanup 0 (ll_get_iterator ex_suite_cleanup.asserts) ρ' ∧
      ρ'.errors = 0 ∧ ρ'.fails = 0 ∧
      ρ'.st = { assertion := some "assert(1 == 1, one)", failed := 0, invalid := none } ∧
      ρ'.pipe = [] ∧ ρ'.world = () ∧ Event.after_signaled "S" "a" 11 ∈ ρ'.out) :=
  ⟨(abnormal_setup_cleanup ex_suite_once).1 ex_proc_once 1
      (ll_get_iterator ex_suite_once.asserts)
      { l := ex_suite_once.asserts, next := ex_suite_once.asserts.root.drop 1 }
      { func := ex_pass, name := "a" } (suite_start ex_suite_once 0) 11 1 rfl rfl rfl,
   (abnormal_setup_cleanup ex_suite_cleanup).2 ex_proc_segv 0
      (ll_get_iterator ex_suite_cleanup.asserts) (ll_get_iterator ex_suite_cleanup.asserts)
      { func := ex_pass, name := "a" } (suite_start ex_suite_cleanup ())
      (suite_start ex_suite_cleanup ()).reset_failed 11 () ()
      { assertion := some "assert(1 == 1, one)", failed := 0, invalid := none }
      rfl rfl rfl rfl rfl rfl⟩

/-- C10. Evaluation of the code on a suite with an after-procedure and a test
whose child is killed by a signal: the branch of cutest.c 191-201 ends in
`continue`, so no child is forked for the after-procedure of that test. -/
theorem after_skipped_on_signal :
    ∃ r, suite_run (register (suite_new "S" none (some ex_proc_ok)) [(ex_segv, "crash")]) () =
        .ok r ∧
      r.out = [.pipe, .starting "S", .fork .test "crash", .test_signaled "S" "crash" 11,
               .summary "S" 0 0 1 1 6] ∧
      Event.fork .after "crash" ∉ r.out :=
  ⟨_, rfl, rfl, by decide⟩

/-- C11. Evaluation of the code on suites of two tests. The loop assigns
`st.failed = 0` only (cutest.c 126), so the second test is handed the
`assertion` and `invalid` of the Status read for the first one: after a
passing first test, the second is handed that test's assertion text; after
a first test that leaves `invalid` set, a second test with an empty body is
counted as an error too. -/
theorem stale_status_handed_on :
    (∃ r, suite_run (register (suite_new "S" none none)
        [(ex_probe_pass, "a"), (ex_probe, "b")]) [] = .ok r ∧
      r.world = [Status.zero,
        { assertion := some "assert(1 == 1, one)", failed := 0, invalid := none }]) ∧
    (∃ r, suite_run (register (suite_new "S" none none)
        [(ex_leave_invalid, "a"), (TEST_CASE [], "b")]) () = .ok r ∧
      r.errors = 2 ∧ r.successes = 0) :=
  ⟨⟨_, rfl, rfl⟩, ⟨_, rfl, rfl, rfl⟩⟩

/-- C12 (as stated). For a new suite without tests `suite_run` creates the
pipe: `pipe (fd)` (cutest.c 109) comes before the test of the size. -/
theorem empty_suite_opens_pipe :
    ∃ r, suite_run (suite_new "S" none none : Suite Unit) () = .ok r ∧ Event.pipe ∈ r.out :=
  ⟨_, rfl, by decide⟩

/-- C12 (amended). For a suite whose list has size 0, `suite_run` returns
after it has created the pipe and printed its two messages: it forks no
child, reads no Status, counts no success, failure or error, and leaves the
world as it was. -/
theorem empty_suite_run (s : Suite ω) (w : ω) (h : s.asserts.size = 0) :
    suite_run s w =
      .ok { successes := 0, fails := 0, errors := 0, tot := 0,
            out := [.pipe, .starting s.name, .empty_suite s.name], world := w } := by
  unfold suite_run
  simp [h, suite_start]

/-- C12 (example). A new suite to which no test was added. -/
theorem empty_suite_run_witness :
    suite_run (register (suite_new "S" none none) []) () =
      .ok { successes := 0, fails := 0, errors := 0, tot := 0,
            out := [.pipe, .starting "S", .empty_suite "S"], world := () } :=
  empty_suite_run (register (suite_new "S" none none) []) () rfl

/-- C13. Evaluation of the code on `fail (x)` with an incoming Status whose
`invalid` is set. The expansion of `_fail` assigns `assertion` and `failed`
and returns, and leaves `invalid` as it is; a test whose body is `fail (x)`,
run after a test that left `invalid` set, is counted as a failure and as an
error. -/
theorem fail_keeps_invalid :
    exec_stmts [(_fail "x" : Stmt Unit)]
        { assertion := none, failed := 0, invalid := some "bad" } () =
      .error ({ assertion := some "Reached a fail() statement: x", failed := 1,
                invalid := some "bad" }, ()) ∧
    (∃ r, suite_run (register (suite_new "S" none none)
        [(ex_leave_invalid, "a"), (TEST_CASE [_fail "x"], "b")]) () = .ok r ∧
      r.tot = 2 ∧ r.fails = 1 ∧ r.errors = 2 ∧ r.successes = -1) :=
  ⟨rfl, ⟨_, rfl, rfl, rfl, rfl, rfl⟩⟩

/-- C15. Evaluation of the code on a suite of one test whose body is
`assert_equals_flo (1.0, 1.0, 0.0, m);`. With `tol <= 0.0` the predicate
calls `sprintf` on `__s->invalid`, which is `NULL` in the Status the test is
handed: the child is killed by the signal, writes no Status, and the test is
reported as terminated by a signal. -/
theorem zero_tolerance_kills_child :
    (ex_zero_tol Status.zero () : ChildResult Status × Unit) = (.killed SIGSEGV, ()) ∧
    (∃ r, suite_run (register (suite_new "S" none none) [(ex_zero_tol, "t")]) () = .ok r ∧
      r.errors = 1 ∧
      r.out = [.pipe, .starting "S", .fork .test "t", .test_signaled "S" "t" 11,
               .summary "S" 0 0 1 1 6]) :=
  ⟨rfl, ⟨_, rfl, rfl, rfl⟩⟩

/-- C16. Evaluation of the five predicates on a violated precondition and a
Status whose `invalid` is `NULL`, as `Status st = {}` is: each of them calls
`sprintf` on the `NULL` pointer and the process is killed; no message is
set and the call does not return. -/
theorem invalid_use_writes_through_null :
    __assert_equals_flo int_ops 1 1 0 Status.zero = .error SIGSEGV ∧
    __assert_equals_array_int ex_x ex_y 0 Status.zero = .error SIGSEGV ∧
    __assert_equals_array_flo int_ops ex_x ex_y 0 1 Status.zero = .error SIGSEGV ∧
    __assert_equals_matrix_int 0 3 (fun _ => ex_x) (fun _ => ex_y) Status.zero =
      .error SIGSEGV ∧
    __assert_equals_matrix_flo int_ops 1 0 (fun _ => ex_x) (fun _ => ex_y) 1 Status.zero =
      .error SIGSEGV :=
  ⟨rfl, rfl, rfl, rfl, rfl⟩

/-- C17. Evaluation of the code with a valid length or size and a tolerance of
0.0 or -1.0. The array and matrix predicates run the comparison and clear
`invalid`, where the scalar `__assert_equals_flo` tests `tol <= 0.0`
(cutest.c 310): equal operands pass with `tol = 0.0` and fail with
`tol = -1.0`, and a test whose body is
`assert_equals_array_flo (x, x, 3, -1.0, m);` is counted as a failure and
not as an error. -/
theorem nonpositive_tolerance_compared :
    __assert_equals_array_flo int_ops ex_x ex_x 3 0
        { assertion := none, failed := 0, invalid := some "buf" } =
      .ok { assertion := none, failed := 0, invalid := none } ∧
    __assert_equals_array_flo int_ops ex_x ex_x 3 (-1)
        { assertion := none, failed := 0, invalid := some "buf" } =
      .ok { assertion := none, failed := 1, invalid := none } ∧
    __assert_equals_matrix_flo int_ops 1 3 (fun _ => ex_x) (fun _ => ex_x) 0
        { assertion := none, failed := 0, invalid := some "buf" } =
      .ok { assertion := none, failed := 0, invalid := none } ∧
    __assert_equals_matrix_flo int_ops 1 3 (fun _ => ex_x) (fun _ => ex_x) (-1)
        { assertion := none, failed := 0, invalid := some "buf" } =
      .ok { assertion := none, failed := 1, invalid := none } ∧
    (∃ r, suite_run (register (suite_new "S" none none) [(ex_negative_tol, "t")]) () = .ok r ∧
      r.fails = 1 ∧ r.errors = 0 ∧ r.successes = 0 ∧
      r.out = [.pipe, .starting "S", .fork .test "t", .read,
               .assertion_failure "S" "t" (some "assert_equals_array_flo(x, x, 3, -1.0, m)"),
               .summary "S" 0 1 0 1 6]) :=
  ⟨rfl, rfl, rfl, rfl, ⟨_, rfl, rfl, rfl, rfl, rfl⟩⟩

/-- C19. With `len >= 1`, `__assert_equals_array_int` returns with `invalid`
cleared and with `failed` set exactly when `x[i] != y[i]` for some `i` below
`len`, whatever the incoming Status; a test whose body is this assertion is
then counted as a failure when the arrays differ. With `len < 1` a test whose
body is this assertion is counted as an error and not as a failure, whatever
Status it is handed. -/
theorem array_int_assertion (x y : Nat → Int) (len : Int) (st : Status) (text : String)
    (s : Suite ω) (tc : Test_case ω) (σ τ : RunState ω)
    (hfun : tc.func = TEST_CASE_single (_assert_equals_array_int x y len text))
    (hbef : before_phase s tc σ.reset_failed = (false, τ))
    (hpipe : τ.pipe = []) :
    (1 ≤ len → ∃ st', __assert_equals_array_int x y len st = .ok st' ∧
      (st'.failed ≠ 0 ↔ ∃ i : Nat, (i : Int) < len ∧ x i ≠ y i) ∧ st'.invalid = none) ∧
    (1 ≤ len → (∃ i : Nat, (i : Int) < len ∧ x i ≠ y i) →
      ∃ σ', run_test_case s tc σ.reset_failed = .ok σ' ∧
        σ'.fails = σ.fails + 1 ∧ σ'.errors = σ.errors) ∧
    (len < 1 →
      ∃ σ', run_test_case s tc σ.reset_failed = .ok σ' ∧
        σ'.errors = σ.errors + 1 ∧ σ'.fails = σ.fails) := by
  have hval : ∀ st0 : Status, 1 ≤ len →
      __assert_equals_array_int x y len st0 =
        .ok { st0 with failed := or_loop (fun i => x i != y i) len.toNat 0, invalid := none } := by
    intro st0 h
    unfold __assert_equals_array_int
    rw [if_neg (by omega)]
  have hiff : 1 ≤ len → (or_loop (fun i => x i != y i) len.toNat 0 ≠ 0 ↔
      ∃ i : Nat, (i : Int) < len ∧ x i ≠ y i) := by
    intro h
    rw [Ne, or_loop_eq_zero]
    simp only [true_and, not_forall]
    constructor
    · rintro ⟨i, hi, hc⟩
      refine ⟨i, by omega, ?_⟩
      intro heq
      apply hc
      simp [heq]
    · rintro ⟨i, hi, hne⟩
      refine ⟨i, by omega, ?_⟩
      simp [hne]
  have hτ := before_phase_false s tc _ τ hbef
  refine ⟨?_, ?_, ?_⟩
  · intro h
    exact ⟨_, hval st h, hiff h, rfl⟩
  · intro h hdiff
    have hret : tc.func τ.st τ.world =
        (.returned { assertion := some text,
                     failed := or_loop (fun i => x i != y i) len.toNat 0,
                     invalid := none }, τ.world) := by
      rw [hfun]
      simp only [TEST_CASE_single, _assert_equals_array_int, hval _ h]
    obtain ⟨σ', h1, _, _, h4, h5, _⟩ :=
      run_test_case_returned s tc σ.reset_failed τ _ τ.world hbef hpipe hret
    refine ⟨σ', h1, ?_, ?_⟩
    · rw [h4, if_pos ((hiff h).2 hdiff)]
      rfl
    · rw [h5]
      simp
      rfl
  · intro h
    cases hinv : τ.st.invalid with
    | none =>
      have hk : tc.func τ.st τ.world = (.killed SIGSEGV, τ.world) := by
        rw [hfun]
        simp [TEST_CASE_single, _assert_equals_array_int, __assert_equals_array_int, h,
          sprintf_invalid, hinv]
      refine ⟨{ τ with errors := τ.errors + 1,
                       out := τ.out ++ [.fork .test tc.name,
                                        .test_signaled s.name tc.name SIGSEGV],
                       world := τ.world }, ?_, ?_, ?_⟩
      · unfold run_test_case
        rw [hbef]
        simp only
        rw [test_phase_killed s tc τ SIGSEGV τ.world hk]
      · simp only [hτ.2.2.2]; rfl
      · simp only [hτ.2.2.1]; rfl
    | some buf =>
      have hf0 : τ.st.failed = 0 := by rw [hτ.1]; rfl
      have hret : tc.func τ.st τ.world =
          (.returned { assertion := some text, failed := 0,
                       invalid := some (array_length_text len) }, τ.world) := by
        rw [hfun]
        simp [TEST_CASE_single, _assert_equals_array_int, __assert_equals_array_int, h,
          sprintf_invalid, hinv, hf0]
      obtain ⟨σ', h1, _, _, h4, h5, _⟩ :=
        run_test_case_returned s tc σ.reset_failed τ _ τ.world hbef hpipe hret
      refine ⟨σ', h1, ?_, ?_⟩
      · rw [h5]
        simp
        rfl
      · rw [h4]
        simp
        rfl

/-- C19 (example). The arrays `{1, 2, 3}` and `{1, 2, 4}`: with `len = 3` the
assertion sets `failed` and the test is counted as a failure; with
`len = 0` the test is counted as an error. -/
theorem array_int_assertion_witness :
    (∃ st', __assert_equals_array_int ex_x ex_y 3 Status.zero = .ok st' ∧
      (st'.failed ≠ 0 ↔ ∃ i : Nat, (i : Int) < 3 ∧ ex_x i ≠ ex_y i) ∧ st'.invalid = none) ∧
    (∃ σ', run_test_case (suite_new "S" none none) (ex_array_case 3)
        (suite_start (suite_new "S" none none) ()).reset_failed = .ok σ' ∧
      σ'.fails = (suite_start (suite_new "S" none none) ()).fails + 1 ∧
      σ'.errors = (suite_start (suite_new "S" none none) ()).errors) ∧
    (∃ σ', run_test_case (suite_new "S" none none) (ex_array_case 0)
        (suite_start (suite_new "S" none none) ()).reset_failed = .ok σ' ∧
      σ'.errors = (suite_start (suite_new "S" none none) ()).errors + 1 ∧
      σ'.fails = (suite_start (suite_new "S" none none) ()).fails) :=
  ⟨(array_int_assertion ex_x ex_y 3 Status.zero "assert_equals_array_int(x, y, len, m)"
      (suite_new "S" none none) (ex_array_case 3) (suite_start (suite_new "S" none none) ())
      (suite_start (suite_new "S" none none) ()) rfl rfl rfl).1 (by decide),
   (array_int_assertion ex_x ex_y 3 Status.zero "assert_equals_array_int(x, y, len, m)"
      (suite_new "S" none none) (ex_array_case 3) (suite_start (suite_new "S" none none) ())
      (suite_start (suite_new "S" none none) ()) rfl rfl rfl).2.1 (by decide)
      ⟨2, by decide, by decide⟩,
   (array_int_assertion ex_x ex_y 0 Status.zero "assert_equals_array_int(x, y, len, m)"
      (suite_new "S" none none) (ex_array_case 0) (suite_start (suite_new "S" none none) ())
      (suite_start (suite_new "S" none none) ()) rfl rfl rfl).2.2 (by decide)⟩

/-- C20. On an empty list `ll_pop_front` and `ll_pop_back` exit with failure
and return nothing. On a non-empty list `ll_pop_back` removes and returns
the item of the root node, and `ll_pop_front` removes and returns the item
of the node farthest from the root, the one `ll_push_front` links; both
leave the other items in their order and decrement `size` by one. -/
theorem ll_pop_ends {α : Type} (n : Nat) (d : α) (rest init : List α) (l : ll_list α) :
    ll_pop_front ({ root := [], size := n } : ll_list α) = none ∧
    ll_pop_back ({ root := [], size := n } : ll_list α) = none ∧
    ll_pop_back { root := d :: rest, size := n + 1 } = some (d, { root := rest, size := n }) ∧
    ll_pop_front { root := init ++ [d], size := n + 1 } =
      some (d, { root := init, size := n }) ∧
    ll_pop_front (ll_push_front l d) = some (d, l) := by
  have hfront : ∀ k, ll_pop_front { root := init ++ [d], size := k + 1 } =
      some (d, { root := init, size := k }) := by
    intro k
    cases init with
    | nil => simp [ll_pop_front, size_dec]
    | cons a init =>
      cases init with
      | nil => simp [ll_pop_front, size_dec, scroll_last]
      | cons b init =>
        simp only [ll_pop_front, List.cons_append, scroll_last_append, size_dec]
        simp
  refine ⟨rfl, rfl, ?_, hfront n, ?_⟩
  · simp [ll_pop_back, size_dec]
  · rw [ll_push_front_eq]
    cases l with
    | mk root size =>
      simp only
      cases root with
      | nil => simp [ll_pop_front, size_dec]
      | cons a root =>
        cases root with
        | nil => simp [ll_pop_front, size_dec, scroll_last]
        | cons b root =>
          simp only [ll_pop_front, List.cons_append, scroll_last_append, size_dec]
          simp

/-- C22. Evaluation of the code on the list of the items 1, 2, 3. At position
2 `ll_pop_pos` returns the item 2 and unlinks its node, and the list the
caller holds keeps `size = 3`: the function gets the list by value and never
decrements `size`. At position 1 the loop does not run and the store
`penultimate->next = n->next` goes through an uninitialised pointer. -/
theorem ll_pop_pos_keeps_size :
    ll_get_pos ex_list 2 = .ok 2 ∧
    ll_pop_pos ex_list 2 = .ok (2, { root := [1, 3], size := 3 }) ∧
    ll_get_pos ex_list 1 = .ok 1 ∧
    ll_pop_pos ex_list 1 = .error .undefined :=
  ⟨rfl, rfl, rfl, rfl⟩

/-- C23. On a non-empty list of `n` nodes, for every `k >= 1` the `k`-th call
of `ll_next` on an iterator from `ll_get_iterator` returns an item, the one
at position `min (k, n)` from the root: the calls past the `n`-th return the
last item again. -/
theorem ll_next_kth {α : Type} (l : ll_list α) (k : Nat) (hne : l.root ≠ [])
    (hk : 1 ≤ k) :
    kth_next k (ll_get_iterator l) = l.root[min k l.root.length - 1]? ∧
    ∃ d, kth_next k (ll_get_iterator l) = some d := by
  have h := kth_next_nodes l k hne hk
  have hlen : 0 < l.root.length := List.length_pos.mpr hne
  have hlt : min k l.root.length - 1 < l.root.length := by omega
  refine ⟨h, l.root[min k l.root.length - 1], ?_⟩
  rw [h, List.getElem?_eq_getElem hlt]

/-- C23 (example). On the list of the items 1, 2, 3 the fifth call returns 3. -/
theorem ll_next_kth_witness :
    kth_next 5 (ll_get_iterator ex_list) = some 3 ∧
    ∃ d, kth_next 5 (ll_get_iterator ex_list) = some d :=
  ll_next_kth ex_list 5 (by decide) (by decide)

/-- C24 (as stated). On the list made by `ll_push_front` of 1, 2 and 3, the
first item `ll_next` returns is 1, while the item at the front end, which
`ll_pop_front` removes and where `ll_push_front` put the last item, is 3;
the last distinct item returned is 3, while the item at the back end, which
`ll_pop_back` removes, is 1. -/
theorem iterator_starts_at_back :
    kth_next 1 (ll_get_iterator ex_list) = some 1 ∧
    (ll_pop_front ex_list).map Prod.fst = some 3 ∧
    kth_next 3 (ll_get_iterator ex_list) = some 3 ∧
    kth_next 4 (ll_get_iterator ex_list) = some 3 ∧
    (ll_pop_back ex_list).map Prod.fst = some 1 :=
  ⟨rfl, rfl, rfl, rfl, rfl⟩

/-- C24 (amended). On a non-empty list the iterator yields the items from the
back end to the front end: the first item `ll_next` returns is the item at
the root, the one `ll_pop_back` removes and the place where `ll_push_back`
inserts; from the call whose number is the number of nodes on, it returns
the item farthest from the root, the one `ll_pop_front` removes and the
place where `ll_push_front` inserts. -/
theorem iterator_back_to_front {α : Type} (l : ll_list α) (e : α) (k : Nat)
    (hne : l.root ≠ []) (hk : l.root.length ≤ k) :
    kth_next 1 (ll_get_iterator l) = (ll_pop_back l).map Prod.fst ∧
    kth_next 1 (ll_get_iterator (ll_push_back l e)) = some e ∧
    kth_next k (ll_get_iterator l) = (ll_pop_front l).map Prod.fst ∧
    kth_next (k + 1) (ll_get_iterator (ll_push_front l e)) = some e := by
  have hlen : 0 < l.root.length := List.length_pos.mpr hne
  refine ⟨?_, ?_, ?_, ?_⟩
  · rw [kth_next_nodes l 1 hne (by omega)]
    cases h : l.root with
    | nil => exact absurd h hne
    | cons d rest => simp [ll_pop_back, h]
  · rw [kth_next_nodes _ 1 (by simp [ll_push_back]) (by omega)]
    simp [ll_push_back]
  · rw [kth_next_nodes l k hne (by omega)]
    rcases List.eq_nil_or_concat l.root with h | ⟨init, d, h⟩
    · exact absurd h hne
    · have hl : l = { root := init ++ [d], size := l.size } := by
        cases l
        simp only at h
        simp [h]
      rw [hl, ll_pop_front_snoc]
      simp only [List.length_append, List.length_singleton, Option.map_some']
      have hlen2 : l.root.length = init.length + 1 := by
        rw [h]
        simp
      have hidx : min k (init.length + 1) - 1 = init.length := by omega
      rw [hidx]
      simp
  · rw [kth_next_nodes _ (k + 1) (by simp [ll_push_front_eq]) (by omega)]
    rw [ll_push_front_eq]
    simp only [List.length_append, List.length_singleton]
    have hidx : min (k + 1) (l.root.length + 1) - 1 = l.root.length := by omega
    rw [hidx]
    simp

/-- C24 (example). On the list of the items 1, 2, 3: the first call returns
what `ll_pop_back` removes, the third call what `ll_pop_front` removes. -/
theorem iterator_back_to_front_witness :
    kth_next 1 (ll_get_iterator ex_list) = (ll_pop_back ex_list).map Prod.fst ∧
    kth_next 1 (ll_get_iterator (ll_push_back ex_list 0)) = some 0 ∧
    kth_next 3 (ll_get_iterator ex_list) = (ll_pop_front ex_list).map Prod.fst ∧
    kth_next (3 + 1) (ll_get_iterator (ll_push_front ex_list 0)) = some 0 :=
  iterator_back_to_front ex_list 0 3 (by decide) (by decide)

/-- C25 (as stated). Copies of the list of the items 1, 2, 3: `ll_copy` and
`ll_append` to an empty list give the items 1, 2, 3 again, which is not the
reverse order 3, 2, 1. -/
theorem copy_keeps_order :
    ll_copy ll_init ex_list = .ok { root := [1, 2, 3], size := 3 } ∧
    ll_append ll_init ex_list = .ok { root := [1, 2, 3], size := 3 } ∧
    ex_list.root = [1, 2, 3] ∧ ex_list.root.reverse = [3, 2, 1] :=
  ⟨rfl, rfl, rfl, rfl⟩

/-- C25 (amended). For a source list whose `size` is its number of nodes,
`ll_append` links the source's items after those of the destination, and
`ll_copy` to a destination of size 0 gives the source's items, in both cases
in the order in which the source's own iterator yields them: the call of
`ll_next` number `k` past the items the destination had returns what the
`k`-th call on the source returns. -/
theorem copy_append_same_order {α : Type} (dst emp src : ll_list α) (k : Nat)
    (hsrc : size_is_length src) (hemp : emp.size = 0)
    (hk1 : 1 ≤ k) (hk2 : k ≤ src.root.length) :
    ll_append dst src =
      .ok { root := dst.root ++ src.root, size := dst.size + src.size } ∧
    ll_copy emp src = .ok { root := src.root, size := src.size } ∧
    kth_next (dst.root.length + k)
        (ll_get_iterator { root := dst.root ++ src.root, size := dst.size + src.size }) =
      kth_next k (ll_get_iterator src) := by
  unfold size_is_length at hsrc
  have htr : ∀ d : ll_list α, transfer src.size (ll_get_iterator src) d =
      .ok { root := d.root ++ src.root, size := d.size + src.size } := by
    intro d
    rw [transfer_take _ _ _ (by simp [ll_get_iterator, hsrc])]
    simp [ll_get_iterator, hsrc]
  have hne : src.root ≠ [] := by
    intro h
    rw [h] at hk2
    simp at hk2
    omega
  refine ⟨htr dst, ?_, ?_⟩
  · unfold ll_copy ll_destroy
    rw [if_pos hemp]
    simp only
    rw [htr ll_init]
    simp [ll_init]
  · rw [kth_next_nodes _ _ (by simp [hne]) (by omega), kth_next_nodes src k hne hk1]
    simp only [List.length_append]
    have h1 : min (dst.root.length + k) (dst.root.length + src.root.length) - 1 =
        dst.root.length + (k - 1) := by omega
    have h2 : min k src.root.length - 1 = k - 1 := by omega
    rw [h1, h2, List.getElem?_append_right (by omega)]
    congr 1
    omega

/-- C25 (example). The list of the items 1, 2, 3 appended to itself and copied
to an empty list. -/
theorem copy_append_same_order_witness :
    ll_append ex_list ex_list = .ok { root := [1, 2, 3] ++ [1, 2, 3], size := 3 + 3 } ∧
    ll_copy ll_init ex_list = .ok { root := [1, 2, 3], size := 3 } ∧
    kth_next (3 + 2) (ll_get_iterator { root := [1, 2, 3] ++ [1, 2, 3], size := 3 + 3 }) =
      kth_next 2 (ll_get_iterator ex_list) :=
  copy_append_same_order ex_list ll_init ex_list 2 rfl rfl (by decide) (by decide)

/-- C27. Evaluation of the code on equal matrixes and an incoming Status whose
`failed` is set. The function has no `__s->failed = 0;` before its loops,
which only or bits into `failed`: `failed` stays set although no element
differs. With `failed` clear before the call the same matrixes pass. -/
theorem matrix_int_keeps_failed :
    __assert_equals_matrix_int 2 2 (fun i j => (i : Int) + j) (fun i j => (i : Int) + j)
        { assertion := none, failed := 1, invalid := none } =
      .ok { assertion := none, failed := 1, invalid := none } ∧
    __assert_equals_matrix_int 2 2 (fun i j => (i : Int) + j) (fun i j => (i : Int) + j)
        { assertion := none, failed := 0, invalid := none } =
      .ok { assertion := none, failed := 0, invalid := none } :=
  ⟨rfl, rfl⟩

/-- C28. Evaluation of the code on the list of the items 1, 2, 3, whose `size`
is its number of nodes. After `ll_pop_pos` at position 2 has returned, the
list has two nodes and `size` is still 3; `ll_get_pos` at position 3, which
the size allows, then runs past the last node. -/
theorem ll_pop_pos_breaks_size :
    size_is_length ex_list ∧
    ll_pop_pos ex_list 2 = .ok (2, { root := [1, 3], size := 3 }) ∧
    ¬ size_is_length ({ root := [1, 3], size := 3 } : ll_list Nat) ∧
    ll_get_pos ({ root := [1, 3], size := 3 } : ll_list Nat) 3 = .error .segfault :=
  ⟨rfl, rfl, fun h => absurd (show (3 : Nat) = 2 from h) (by decide), rfl⟩

end Claims

end CUTest
